import Mathlib

/-!
# Verification of the mpegflow arranged-output pipeline

Shallow embedding of `src/mpegflow.cpp`: the FrameInfo grid structure, grid
binning of decoder motion vectors, the two-sweep neighbor fill at grid step 8,
temporal interpolation, the idempotent emitter with its process-wide FirstPts
baseline, the frame dispatcher (duplicate-PTS filter), and the end-of-stream
flush of `main`.

Machine-arithmetic conventions:
* C `int` / `int64_t` values are modelled as `Int` (no overflow occurs in the
  ranges exercised: displacements and timestamps are far from 2^63).
* C `size_t` expressions that can wrap are modelled explicitly: conversion of a
  signed value to `size_t` is reduction mod 2^64 (`toSizeT`), and the
  subtraction `Shape.first - 1` on `size_t` is `sizeTSub1`.
* C signed integer division `/` truncates toward zero and is modelled by
  `Int.tdiv`.
-/

namespace Mpegflow

/-- C++ conversion of a signed integer to 64-bit `size_t`: reduction mod 2^64.
In `output_vectors_std`, `mv.dst_y / cur.GridStep` converts the `int16_t`
coordinate to `size_t` before the unsigned division. -/
def toSizeT (x : Int) : Nat := (x % (2 ^ 64)).toNat

/-- `size_t` subtraction of 1, as in `cur.Shape.first - 1`: wraps at 0. -/
def sizeTSub1 (n : Nat) : Nat := (n + (2 ^ 64 - 1)) % 2 ^ 64

/-- Pointwise update of a two-argument function (one array cell). -/
def upd {α : Type} (f : Nat → Nat → α) (i j : Nat) (v : α) : Nat → Nat → α :=
  fun i' j' => if i' = i ∧ j' = j then v else f i' j'

/-- A decoder motion vector (the fields of `AVMotionVector` used by the
program): source and destination points in pixel coordinates. -/
structure AVMotionVector where
  src_x : Int
  src_y : Int
  dst_x : Int
  dst_y : Int
deriving DecidableEq

/-- The `FrameInfo` struct: a dense motion-vector grid for one frame.  The C
arrays `dx`, `dy`, `occupancy` (of size `MAX_GRID_SIZE`²) are modelled as
total functions; only cells below `Shape` are ever read or written by the
program. -/
structure FrameInfo where
  GridStep : Nat
  Shape : Nat × Nat
  dx : Nat → Nat → Int
  dy : Nat → Nat → Int
  occupancy : Nat → Nat → Nat
  Pts : Int
  FrameIndex : Int
  PictType : Char
  Origin : String
  Empty : Bool
  Printed : Bool

/-- `MAX_GRID_SIZE` from the source. -/
def MAX_GRID_SIZE : Nat := 512

/-- The `FrameInfo()` constructor: zeroed arrays, `Empty = true`,
`Printed = false`, `PictType = '?'`, `FrameIndex = -1`, `Pts = -1`,
`Origin = ""`.  (`GridStep` and `Shape` are left uninitialized by the C
constructor and are always assigned by the caller; we zero them here.) -/
def FrameInfo.initial : FrameInfo :=
  { GridStep := 0
    Shape := (0, 0)
    dx := fun _ _ => 0
    dy := fun _ _ => 0
    occupancy := fun _ _ => 0
    Pts := -1
    FrameIndex := -1
    PictType := '?'
    Origin := ""
    Empty := true
    Printed := false }

/-- `FrameInfo::InterpolateFlow(prev, next)`: overwrite every `dx`/`dy` cell
inside `Shape` with the truncating average of the aligned cells of `prev` and
`next`; occupancy is untouched; `Empty := false`, `Origin := "interpolated"`. -/
def FrameInfo.InterpolateFlow (self prevF nextF : FrameInfo) : FrameInfo :=
  { self with
    dx := fun i j =>
      if i < self.Shape.1 ∧ j < self.Shape.2 then
        Int.tdiv (prevF.dx i j + nextF.dx i j) 2
      else self.dx i j
    dy := fun i j =>
      if i < self.Shape.1 ∧ j < self.Shape.2 then
        Int.tdiv (prevF.dy i j + nextF.dy i j) 2
      else self.dy i j
    Empty := false
    Origin := "interpolated" }

/-- The body of the innermost loop of
`FrameInfo::FillInSomeMissingVectorsInGrid8`, applied in place to the cell
`c = (i, j)`: if the cell is unoccupied, fill it from its left/right
neighbors when both are occupied, else from its top/bottom neighbors when
both are occupied, marking occupancy 2. -/
def fillCell (g : FrameInfo) (c : Nat × Nat) : FrameInfo :=
  let i := c.1
  let j := c.2
  if g.occupancy i j = 0 then
    if g.occupancy i (j - 1) ≠ 0 ∧ g.occupancy i (j + 1) ≠ 0 then
      { g with
        dx := upd g.dx i j (Int.tdiv (g.dx i (j - 1) + g.dx i (j + 1)) 2)
        dy := upd g.dy i j (Int.tdiv (g.dy i (j - 1) + g.dy i (j + 1)) 2)
        occupancy := upd g.occupancy i j 2 }
    else if g.occupancy (i - 1) j ≠ 0 ∧ g.occupancy (i + 1) j ≠ 0 then
      { g with
        dx := upd g.dx i j (Int.tdiv (g.dx (i - 1) j + g.dx (i + 1) j) 2)
        dy := upd g.dy i j (Int.tdiv (g.dy (i - 1) j + g.dy (i + 1) j) 2)
        occupancy := upd g.occupancy i j 2 }
    else g
  else g

/-- The interior cells `1 ≤ i < rows - 1`, `1 ≤ j < cols - 1` in the
row-major order of the two `for` loops.  (For `rows = 0` the C expression
`Shape.first - 1` underflows on `size_t` and the loop reads out of bounds —
undefined behavior, unreachable for shapes produced from real video sizes;
we model the loop for the well-defined shapes.) -/
def interiorCells (shape : Nat × Nat) : List (Nat × Nat) :=
  (List.range' 1 (shape.1 - 2)).flatMap fun i =>
    (List.range' 1 (shape.2 - 2)).map fun j => (i, j)

/-- One in-place sweep of `FillInSomeMissingVectorsInGrid8` over the interior
cells (one iteration of the outer `k` loop). -/
def fillSweep (g : FrameInfo) : FrameInfo :=
  (interiorCells g.Shape).foldl fillCell g

/-- `FrameInfo::FillInSomeMissingVectorsInGrid8`: the `k`-loop performs two
sweeps. -/
def FrameInfo.FillInSomeMissingVectorsInGrid8 (g : FrameInfo) : FrameInfo :=
  (List.range 2).foldl (fun h _ => fillSweep h) g

/-- One record of arranged output: the rebased header timestamp
(`Pts - FirstPts`) together with the grid whose matrices are printed. -/
structure Emitted where
  headerPts : Int
  frame : FrameInfo

/-- `FrameInfo::PrintIfNotPrinted`, with the `static int64_t FirstPts` passed
and returned explicitly.  A no-op on an already printed grid; otherwise
initializes `FirstPts` if it is still `-1`, emits one record, and marks the
grid printed. -/
def printIfNotPrinted (firstPts : Int) (g : FrameInfo) :
    Int × FrameInfo × List Emitted :=
  if g.Printed then (firstPts, g, [])
  else
    let fp := if firstPts = -1 then g.Pts else firstPts
    (fp, { g with Printed := true },
      [{ headerPts := g.Pts - fp, frame := { g with Printed := true } }])

/-- `for(i...) prev[i].PrintIfNotPrinted()`: print a list of grids in order,
threading `FirstPts`. -/
def printAll (firstPts : Int) (gs : List FrameInfo) :
    Int × List FrameInfo × List Emitted :=
  match gs with
  | [] => (firstPts, [], [])
  | g :: rest =>
    let r1 := printIfNotPrinted firstPts g
    let r2 := printAll r1.1 rest
    (r2.1, r1.2.1 :: r2.2.1, r1.2.2 ++ r2.2.2)

/-- The configuration fixed for a run: `ARG_FORCE_GRID_8` and the frame size
selected by `ffmpeg_init`. -/
structure Config where
  forceGrid8 : Bool
  frameWidth : Nat
  frameHeight : Nat

/-- `size_t gridStep = ARG_FORCE_GRID_8 ? 8 : 16;` -/
def Config.gridStep (c : Config) : Nat := if c.forceGrid8 then 8 else 16

/-- `shape = (min(frameHeight/gridStep, MAX), min(frameWidth/gridStep, MAX))`. -/
def Config.shape (c : Config) : Nat × Nat :=
  (min (c.frameHeight / c.gridStep) MAX_GRID_SIZE,
   min (c.frameWidth / c.gridStep) MAX_GRID_SIZE)

/-- The clipped grid index of `output_vectors_std`:
`max(size_t(0), min(coord / gridStep, bound - 1))` where `coord` is converted
to `size_t` (so negative coordinates wrap to huge values) and `bound - 1` is
`size_t` subtraction. -/
def clipIndex (coord : Int) (gridStep bound : Nat) : Nat :=
  max 0 (min (toSizeT coord / gridStep) (sizeTSub1 bound))

/-- The binning loop body: store one decoder vector's displacement at its
clipped cell, set occupancy 1, clear `Empty`.  Last writer wins. -/
def binVector (cur : FrameInfo) (mv : AVMotionVector) : FrameInfo :=
  let mvdx := mv.dst_x - mv.src_x
  let mvdy := mv.dst_y - mv.src_y
  let i_clipped := clipIndex mv.dst_y cur.GridStep cur.Shape.1
  let j_clipped := clipIndex mv.dst_x cur.GridStep cur.Shape.2
  { cur with
    Empty := false
    dx := upd cur.dx i_clipped j_clipped mvdx
    dy := upd cur.dy i_clipped j_clipped mvdy
    occupancy := upd cur.occupancy i_clipped j_clipped 1 }

/-- The full binning loop over the delivered motion vectors, in input order. -/
def binAll (cur : FrameInfo) (mvs : List AVMotionVector) : FrameInfo :=
  mvs.foldl binVector cur

/-- The fresh `FrameInfo cur` of `output_vectors_std` right after the field
assignments, before binning. -/
def initCur (cfg : Config) (frameIndex pts : Int) (pictType : Char) : FrameInfo :=
  { FrameInfo.initial with
    FrameIndex := frameIndex
    Pts := pts
    Origin := "video"
    PictType := pictType
    GridStep := cfg.gridStep
    Shape := cfg.shape }

/-- Construction of `cur` in `output_vectors_std`: a fresh `FrameInfo` with
the frame's metadata, binned from the motion vectors, then (exactly when
`GridStep == 8`) passed through `FillInSomeMissingVectorsInGrid8`. -/
def mkCur (cfg : Config) (frameIndex pts : Int) (pictType : Char)
    (mvs : List AVMotionVector) : FrameInfo :=
  let cur1 := binAll (initCur cfg frameIndex pts pictType) mvs
  if cur1.GridStep = 8 then cur1.FillInSomeMissingVectorsInGrid8 else cur1

instance : Inhabited FrameInfo := ⟨FrameInfo.initial⟩

/-- The persistent state of `output_vectors_std`: the `static` buffer `prev`
and the `static` baseline `FirstPts` of the emitter. -/
structure PipelineState where
  prev : List FrameInfo
  firstPts : Int

/-- Initial pipeline state: empty buffer, `FirstPts = -1`. -/
def initPipeline : PipelineState := { prev := [], firstPts := -1 }

/-- One call of `output_vectors_std` in arranged mode.  Returns the new state
and the records emitted during the call.
* `frameIndex = -1` (the end-of-stream flush): print every grid of `prev` (the
  emitter skips already-printed ones), do not clear, push the sentinel `cur`.
* non-empty vector list: if `prev` has exactly two grids and the front one is
  non-empty, interpolate the back grid from the front grid and `cur` and print
  it; otherwise print all of `prev`; then clear `prev`, print `cur`, push it.
* empty vector list: just push `cur`. -/
def output_vectors_std (cfg : Config) (st : PipelineState) (frameIndex pts : Int)
    (pictType : Char) (mvs : List AVMotionVector) :
    PipelineState × List Emitted :=
  let cur := mkCur cfg frameIndex pts pictType mvs
  if frameIndex = -1 then
    let r := printAll st.firstPts st.prev
    ({ prev := r.2.1 ++ [cur], firstPts := r.1 }, r.2.2)
  else if mvs.isEmpty then
    ({ prev := st.prev ++ [cur], firstPts := st.firstPts }, [])
  else
    let r1 :=
      if st.prev.length = 2 ∧ st.prev.headI.Empty = false then
        let p1' := FrameInfo.InterpolateFlow st.prev.getLastI st.prev.headI cur
        let r := printIfNotPrinted st.firstPts p1'
        (r.1, r.2.2)
      else
        let r := printAll st.firstPts st.prev
        (r.1, r.2.2)
    let r2 := printIfNotPrinted r1.1 cur
    ({ prev := [r2.2.1], firstPts := r2.1 }, r1.2 ++ r2.2.2)

/-- One frame as delivered to the arranged pipeline by the dispatcher:
assigned frame index, timestamp, picture type, and motion-vector list. -/
structure Call where
  frameIndex : Int
  pts : Int
  pictType : Char
  mvs : List AVMotionVector

/-- Process a sequence of dispatched frames through the arranged pipeline,
collecting all emitted records. -/
def processCalls (cfg : Config) (st : PipelineState) (calls : List Call) :
    PipelineState × List Emitted :=
  match calls with
  | [] => (st, [])
  | c :: rest =>
    let r1 := output_vectors_std cfg st c.frameIndex c.pts c.pictType c.mvs
    let r2 := processCalls cfg r1.1 rest
    (r2.1, r1.2 ++ r2.2)

/-- A full arranged-mode run on clean end of stream: process every dispatched
frame, then perform the flush call `output_vectors_std(-1, pts, pictType,
motionVectors)` with the last delivered values (as `main` does). -/
def runArranged (cfg : Config) (calls : List Call) :
    PipelineState × List Emitted :=
  let r1 := processCalls cfg initPipeline calls
  let last := calls.getLast?.getD { frameIndex := 0, pts := 0, pictType := '?', mvs := [] }
  let r2 := output_vectors_std cfg r1.1 (-1) last.pts last.pictType last.mvs
  (r2.1, r1.2 ++ r2.2)

/-- The grid as it is stored back after an emission. -/
def markPrinted (g : FrameInfo) : FrameInfo := { g with Printed := true }

/-- The number of trailing frames whose vector list is empty. -/
def trailingEmptyCount (calls : List Call) : Nat :=
  (calls.reverse.takeWhile fun c => c.mvs.isEmpty).length

/-- One text block of `output_vectors_raw`: the header data and one line per
vector with non-zero displacement (`dst_x`, `dst_y`, `dx`, `dy`). -/
structure RawBlock where
  pts : Int
  frameIndex : Int
  pictType : Char
  count : Nat
  rows : List (Int × Int × Int × Int)

/-- `output_vectors_raw`: header with the vector count, then one row per
vector whose displacement is non-zero, in input order. -/
def output_vectors_raw (frameIndex pts : Int) (pictType : Char)
    (mvs : List AVMotionVector) : RawBlock :=
  { pts := pts
    frameIndex := frameIndex
    pictType := pictType
    count := mvs.length
    rows :=
      (mvs.filter fun mv =>
        !(mv.dst_x - mv.src_x = 0 && mv.dst_y - mv.src_y = 0)).map
        fun mv => (mv.dst_x, mv.dst_y, mv.dst_x - mv.src_x, mv.dst_y - mv.src_y) }

/-- One frame as delivered by the decoder to `frameCallback`:
timestamp, picture type, motion vectors. -/
structure Frame where
  pts : Int
  pictType : Char
  mvs : List AVMotionVector

/-- The mutable state captured by `main`'s `frameCallback`: the arranged
pipeline's statics, `prev_pts`, `frameIndex`, and the last delivered
`pts` / `pictType` / `motionVectors` (used again by the final flush call).
In C, `pts`, `pictType` and `motionVectors` are uninitialized before the
first frame; we start them at `0` / `'?'` / `[]`. -/
structure MainState where
  pst : PipelineState
  prevPts : Int
  frameIndex : Int
  lastPts : Int
  lastPict : Char
  lastMvs : List AVMotionVector

/-- `int64_t pts, prev_pts = -1; int frameIndex = 0;` -/
def initMain : MainState :=
  { pst := initPipeline, prevPts := -1, frameIndex := 0,
    lastPts := 0, lastPict := '?', lastMvs := [] }

/-- The `frameCallback` lambda of `main`: increment the frame counter, record
the delivered values, drop the frame (with a warning unless quiet) when
`pts <= prev_pts && prev_pts != -1`, otherwise route it to the raw or the
arranged emitter and update `prev_pts`.  Returns the new state, the arranged
records, the raw blocks, and the warning lines `(frameIndex, pts)` written to
stderr. -/
def frameCallback (cfg : Config) (raw quiet : Bool) (st : MainState)
    (f : Frame) : MainState × List Emitted × List RawBlock × List (Int × Int) :=
  let fi := st.frameIndex + 1
  let st0 := { st with
    frameIndex := fi
    lastPts := f.pts
    lastPict := f.pictType
    lastMvs := f.mvs }
  if f.pts ≤ st.prevPts ∧ st.prevPts ≠ -1 then
    (st0, [], [], if quiet then [] else [(fi, f.pts)])
  else if raw then
    ({ st0 with prevPts := f.pts }, [],
     [output_vectors_raw fi f.pts f.pictType f.mvs], [])
  else
    let r := output_vectors_std cfg st.pst fi f.pts f.pictType f.mvs
    ({ st0 with pst := r.1, prevPts := f.pts }, r.2, [], [])

/-- Deliver a list of frames to `frameCallback`, concatenating the outputs. -/
def processFrames (cfg : Config) (raw quiet : Bool) (st : MainState)
    (fs : List Frame) :
    MainState × List Emitted × List RawBlock × List (Int × Int) :=
  match fs with
  | [] => (st, [], [], [])
  | f :: rest =>
    let r1 := frameCallback cfg raw quiet st f
    let r2 := processFrames cfg raw quiet r1.1 rest
    (r2.1, r1.2.1 ++ r2.2.1, r1.2.2.1 ++ r2.2.2.1, r1.2.2.2 ++ r2.2.2.2)

/-- `AVERROR_EOF = FFERRTAG('E','O','F',' ')`, the end-of-stream return code
of the decoder. -/
def AVERROR_EOF : Int := -541478725

/-- What a whole run of `main` produces (observable effects). -/
structure RunResult where
  arranged : List Emitted
  raw : List RawBlock
  warnings : List (Int × Int)
  errorPrinted : Bool
  exitCode : Nat

/-- The tail of `main` after `parse_options`/`ffmpeg_init`: run the decode
loop (delivering `frames`, then returning `ret`), print the error and exit 1
on a negative return other than `AVERROR_EOF` (buffered frames are not
flushed), otherwise — in arranged mode only — make the flush call
`output_vectors_std(-1, pts, pictType, motionVectors)` with the last
delivered values, and exit 0. -/
def runMain (cfg : Config) (raw quiet : Bool) (frames : List Frame)
    (ret : Int) : RunResult × MainState :=
  let r := processFrames cfg raw quiet initMain frames
  let st := r.1
  if ret < 0 ∧ ret ≠ AVERROR_EOF then
    ({ arranged := r.2.1, raw := r.2.2.1, warnings := r.2.2.2,
       errorPrinted := true, exitCode := 1 }, st)
  else if raw = false then
    let rf := output_vectors_std cfg st.pst (-1) st.lastPts st.lastPict st.lastMvs
    ({ arranged := r.2.1 ++ rf.2, raw := r.2.2.1, warnings := r.2.2.2,
       errorPrinted := false, exitCode := 0 }, { st with pst := rf.1 })
  else
    ({ arranged := r.2.1, raw := r.2.2.1, warnings := r.2.2.2,
       errorPrinted := false, exitCode := 0 }, st)

/-- Concrete sample config for witnesses: default grid, 16×16 frame
(shape 1×1). -/
def cfgOne : Config := { forceGrid8 := false, frameWidth := 16, frameHeight := 16 }

/-- A concrete already-emitted non-empty grid (as `prev[0]` in witnesses). -/
def sampleP0 : FrameInfo :=
  { GridStep := 16, Shape := (1, 1), dx := fun _ _ => 2, dy := fun _ _ => 2,
    occupancy := fun _ _ => 1, Pts := 0, FrameIndex := 1, PictType := 'I',
    Origin := "video", Empty := false, Printed := true }

/-- A concrete buffered empty grid (as `prev[1]` in witnesses). -/
def sampleP1 : FrameInfo :=
  { GridStep := 16, Shape := (1, 1), dx := fun _ _ => 0, dy := fun _ _ => 0,
    occupancy := fun _ _ => 0, Pts := 1, FrameIndex := 2, PictType := 'B',
    Origin := "video", Empty := true, Printed := false }

/-- The full contents of one grid cell: `(dx, dy, occupancy)`. -/
def cellOf (g : FrameInfo) (i j : Nat) : Int × Int × Nat :=
  (g.dx i j, g.dy i j, g.occupancy i j)

/-- The frame indexes of the not-yet-printed grids of a buffer, in order. -/
def unprintedIdx (gs : List FrameInfo) : List Int :=
  (gs.filter fun g => !g.Printed).map fun g => g.FrameIndex

/-- Every cell with occupancy 0 holds the zero displacement. -/
def ZeroHoles (g : FrameInfo) : Prop :=
  ∀ i j, g.occupancy i j = 0 → g.dx i j = 0 ∧ g.dy i j = 0

/-- The reachability invariant of the arranged pipeline used for the PTS
claims: `p1` is the pts of the first frame of the run, `lastPts` the pts of
the last processed frame, `em` the records emitted so far.  The buffer is
non-empty with strictly increasing timestamps ending at `lastPts`; non-empty
grids in it are printed; emitted records are rebased against `p1` and
strictly increasing; before any emission the baseline is uninitialized, the
buffer all-unprinted and headed by the first frame; after the first emission
the baseline is `p1`, the first record's grid is the first frame, and the
buffer head is the printed grid of the last emitted record. -/
structure ArrangedInv (p1 lastPts : Int) (st : PipelineState)
    (em : List Emitted) : Prop where
  prev_ne : st.prev ≠ []
  prev_sorted : (st.prev.map FrameInfo.Pts).Pairwise (· < ·)
  prev_last : (st.prev.map FrameInfo.Pts).getLast? = some lastPts
  printed_full : ∀ g ∈ st.prev, g.Empty = false → g.Printed = true
  em_header : ∀ e ∈ em, e.headerPts = e.frame.Pts - p1
  em_sorted : (em.map fun e => e.frame.Pts).Pairwise (· < ·)
  em_nil : em = [] → st.firstPts = -1 ∧ (∀ g ∈ st.prev, g.Printed = false) ∧
    (st.prev.map FrameInfo.Pts).head? = some p1
  em_cons : em ≠ [] → st.firstPts = p1 ∧
    (em.map fun e => e.frame.Pts).head? = some p1 ∧
    ∃ gh, st.prev.head? = some gh ∧ gh.Printed = true ∧
      (em.map fun e => e.frame.Pts).getLast? = some gh.Pts

/-- A concrete 3×5 grid (grid step 8) whose interior cell (1,2) is filled by
the first sweep from its vertical neighbors and whose interior cell (1,1) is
then filled by the second sweep using (1,2) as a donor. -/
def sampleGrid8 : FrameInfo :=
  { GridStep := 8, Shape := (3, 5),
    dx := fun i j =>
      if i = 1 ∧ j = 0 then 6 else if (i = 0 ∨ i = 2) ∧ j = 2 then 4 else 0,
    dy := fun _ _ => 0,
    occupancy := fun i j =>
      if i = 1 ∧ j = 0 then 1 else if (i = 0 ∨ i = 2) ∧ j = 2 then 1 else 0,
    Pts := 0, FrameIndex := 1, PictType := 'I', Origin := "video",
    Empty := false, Printed := false }

/-! ## Helper lemmas: field preservation -/

/-- `fillCell` touches only the `dx`, `dy`, `occupancy` arrays. -/
lemma fillCell_meta (g : FrameInfo) (c : Nat × Nat) :
    (fillCell g c).GridStep = g.GridStep ∧ (fillCell g c).Shape = g.Shape ∧
    (fillCell g c).Pts = g.Pts ∧ (fillCell g c).FrameIndex = g.FrameIndex ∧
    (fillCell g c).PictType = g.PictType ∧ (fillCell g c).Origin = g.Origin ∧
    (fillCell g c).Empty = g.Empty ∧ (fillCell g c).Printed = g.Printed := by
  unfold fillCell
  dsimp only
  repeat' split
  all_goals exact ⟨rfl, rfl, rfl, rfl, rfl, rfl, rfl, rfl⟩

lemma foldl_fillCell_meta (l : List (Nat × Nat)) (g : FrameInfo) :
    (l.foldl fillCell g).GridStep = g.GridStep ∧
    (l.foldl fillCell g).Shape = g.Shape ∧
    (l.foldl fillCell g).Pts = g.Pts ∧
    (l.foldl fillCell g).FrameIndex = g.FrameIndex ∧
    (l.foldl fillCell g).PictType = g.PictType ∧
    (l.foldl fillCell g).Origin = g.Origin ∧
    (l.foldl fillCell g).Empty = g.Empty ∧
    (l.foldl fillCell g).Printed = g.Printed := by
  induction l generalizing g with
  | nil => exact ⟨rfl, rfl, rfl, rfl, rfl, rfl, rfl, rfl⟩
  | cons c l ih =>
    simp only [List.foldl_cons]
    obtain ⟨h1, h2, h3, h4, h5, h6, h7, h8⟩ := ih (fillCell g c)
    obtain ⟨m1, m2, m3, m4, m5, m6, m7, m8⟩ := fillCell_meta g c
    exact ⟨h1.trans m1, h2.trans m2, h3.trans m3, h4.trans m4,
           h5.trans m5, h6.trans m6, h7.trans m7, h8.trans m8⟩

lemma fillSweep_meta (g : FrameInfo) :
    (fillSweep g).GridStep = g.GridStep ∧ (fillSweep g).Shape = g.Shape ∧
    (fillSweep g).Pts = g.Pts ∧ (fillSweep g).FrameIndex = g.FrameIndex ∧
    (fillSweep g).PictType = g.PictType ∧ (fillSweep g).Origin = g.Origin ∧
    (fillSweep g).Empty = g.Empty ∧ (fillSweep g).Printed = g.Printed :=
  foldl_fillCell_meta _ g

/-- The `k` loop of `FillInSomeMissingVectorsInGrid8` runs the sweep exactly
twice. -/
lemma fill_eq_two_sweeps (g : FrameInfo) :
    g.FillInSomeMissingVectorsInGrid8 = fillSweep (fillSweep g) := rfl

lemma fill_meta (g : FrameInfo) :
    g.FillInSomeMissingVectorsInGrid8.GridStep = g.GridStep ∧
    g.FillInSomeMissingVectorsInGrid8.Shape = g.Shape ∧
    g.FillInSomeMissingVectorsInGrid8.Pts = g.Pts ∧
    g.FillInSomeMissingVectorsInGrid8.FrameIndex = g.FrameIndex ∧
    g.FillInSomeMissingVectorsInGrid8.PictType = g.PictType ∧
    g.FillInSomeMissingVectorsInGrid8.Origin = g.Origin ∧
    g.FillInSomeMissingVectorsInGrid8.Empty = g.Empty ∧
    g.FillInSomeMissingVectorsInGrid8.Printed = g.Printed := by
  rw [fill_eq_two_sweeps]
  obtain ⟨h1, h2, h3, h4, h5, h6, h7, h8⟩ := fillSweep_meta (fillSweep g)
  obtain ⟨m1, m2, m3, m4, m5, m6, m7, m8⟩ := fillSweep_meta g
  exact ⟨h1.trans m1, h2.trans m2, h3.trans m3, h4.trans m4,
         h5.trans m5, h6.trans m6, h7.trans m7, h8.trans m8⟩

/-- `binVector` touches only the arrays and `Empty`. -/
lemma binVector_meta (g : FrameInfo) (mv : AVMotionVector) :
    (binVector g mv).GridStep = g.GridStep ∧ (binVector g mv).Shape = g.Shape ∧
    (binVector g mv).Pts = g.Pts ∧ (binVector g mv).FrameIndex = g.FrameIndex ∧
    (binVector g mv).PictType = g.PictType ∧ (binVector g mv).Origin = g.Origin ∧
    (binVector g mv).Printed = g.Printed ∧ (binVector g mv).Empty = false :=
  ⟨rfl, rfl, rfl, rfl, rfl, rfl, rfl, rfl⟩

lemma binAll_meta (mvs : List AVMotionVector) (g : FrameInfo) :
    (binAll g mvs).GridStep = g.GridStep ∧ (binAll g mvs).Shape = g.Shape ∧
    (binAll g mvs).Pts = g.Pts ∧ (binAll g mvs).FrameIndex = g.FrameIndex ∧
    (binAll g mvs).PictType = g.PictType ∧ (binAll g mvs).Origin = g.Origin ∧
    (binAll g mvs).Printed = g.Printed := by
  induction mvs generalizing g with
  | nil => exact ⟨rfl, rfl, rfl, rfl, rfl, rfl, rfl⟩
  | cons mv mvs ih =>
    simp only [binAll, List.foldl_cons] at *
    obtain ⟨h1, h2, h3, h4, h5, h6, h7⟩ := ih (binVector g mv)
    exact ⟨h1, h2, h3, h4, h5, h6, h7⟩

lemma binAll_empty_of_ne (mvs : List AVMotionVector) (g : FrameInfo)
    (h : mvs ≠ []) : (binAll g mvs).Empty = false := by
  induction mvs generalizing g with
  | nil => exact absurd rfl h
  | cons mv mvs ih =>
    cases mvs with
    | nil => exact (binVector_meta g mv).2.2.2.2.2.2.2
    | cons mv2 rest =>
      simpa only [binAll, List.foldl_cons] using
        ih (binVector g mv) (List.cons_ne_nil _ _)

/-- Metadata of the freshly constructed `cur` of `output_vectors_std`. -/
lemma mkCur_meta (cfg : Config) (frameIndex pts : Int) (pictType : Char)
    (mvs : List AVMotionVector) :
    (mkCur cfg frameIndex pts pictType mvs).GridStep = cfg.gridStep ∧
    (mkCur cfg frameIndex pts pictType mvs).Shape = cfg.shape ∧
    (mkCur cfg frameIndex pts pictType mvs).Pts = pts ∧
    (mkCur cfg frameIndex pts pictType mvs).FrameIndex = frameIndex ∧
    (mkCur cfg frameIndex pts pictType mvs).PictType = pictType ∧
    (mkCur cfg frameIndex pts pictType mvs).Origin = "video" ∧
    (mkCur cfg frameIndex pts pictType mvs).Printed = false := by
  unfold mkCur
  dsimp only
  split
  · obtain ⟨h1, h2, h3, h4, h5, h6, _, h8⟩ := fill_meta (binAll _ mvs)
    obtain ⟨m1, m2, m3, m4, m5, m6, m7⟩ := binAll_meta mvs _
    exact ⟨h1.trans m1, h2.trans m2, h3.trans m3, h4.trans m4,
           h5.trans m5, h6.trans m6, h8.trans m7⟩
  · obtain ⟨m1, m2, m3, m4, m5, m6, m7⟩ := binAll_meta mvs _
    exact ⟨m1, m2, m3, m4, m5, m6, m7⟩

lemma mkCur_empty_false (cfg : Config) (frameIndex pts : Int) (pictType : Char)
    (mvs : List AVMotionVector) (h : mvs ≠ []) :
    (mkCur cfg frameIndex pts pictType mvs).Empty = false := by
  unfold mkCur
  dsimp only
  split
  · exact (fill_meta _).2.2.2.2.2.2.1.trans (binAll_empty_of_ne mvs _ h)
  · exact binAll_empty_of_ne mvs _ h

lemma printIfNotPrinted_of_printed (fp : Int) (g : FrameInfo)
    (h : g.Printed = true) : printIfNotPrinted fp g = (fp, g, []) := by
  simp [printIfNotPrinted, h]

lemma printIfNotPrinted_of_unprinted (fp : Int) (g : FrameInfo)
    (h : g.Printed = false) :
    printIfNotPrinted fp g =
      (if fp = -1 then g.Pts else fp, { g with Printed := true },
       [{ headerPts := g.Pts - (if fp = -1 then g.Pts else fp),
          frame := { g with Printed := true } }]) := by
  simp [printIfNotPrinted, h]

lemma markPrinted_of_printed (g : FrameInfo) (h : g.Printed = true) :
    markPrinted g = g := by
  cases g
  simp only [markPrinted]
  simp_all

lemma printIfNotPrinted_of_unprinted_ne (fp : Int) (g : FrameInfo)
    (h : g.Printed = false) (hfp : fp ≠ -1) :
    printIfNotPrinted fp g =
      (fp, markPrinted g,
       [{ headerPts := g.Pts - fp, frame := markPrinted g }]) := by
  rw [printIfNotPrinted_of_unprinted fp g h, if_neg hfp]
  rfl

/-- When the baseline is already initialized (`FirstPts ≠ -1`), printing a
list of grids leaves the baseline unchanged, marks every grid printed, and
emits exactly the previously unprinted grids, in order, with rebased
timestamps. -/
lemma printAll_of_ne (gs : List FrameInfo) (fp : Int) (hfp : fp ≠ -1) :
    printAll fp gs =
      (fp, gs.map markPrinted,
       (gs.filter fun g => !g.Printed).map
         fun g => { headerPts := g.Pts - fp, frame := markPrinted g }) := by
  induction gs with
  | nil => rfl
  | cons g rest ih =>
    by_cases hg : g.Printed = true
    · simp only [printAll, printIfNotPrinted_of_printed fp g hg, ih,
        List.map_cons, List.filter_cons, hg, Bool.not_true, List.nil_append,
        markPrinted_of_printed g hg]
      rfl
    · have hg' : g.Printed = false := by simpa using hg
      simp only [printAll, printIfNotPrinted_of_unprinted_ne fp g hg' hfp, ih,
        List.map_cons, List.filter_cons, hg', Bool.not_false]
      rfl

/-- Printing a list of all-unprinted grids with an uninitialized baseline:
the baseline becomes the first grid's `Pts` (provided that is not `-1`) and
every grid is emitted, rebased against it. -/
lemma printAll_init (g0 : FrameInfo) (rest : List FrameInfo)
    (hall : ∀ g ∈ rest, g.Printed = false) (h0p : g0.Printed = false)
    (h0 : g0.Pts ≠ -1) :
    printAll (-1) (g0 :: rest) =
      (g0.Pts, (g0 :: rest).map markPrinted,
       (g0 :: rest).map
         fun g => { headerPts := g.Pts - g0.Pts, frame := markPrinted g }) := by
  have hfilter : (rest.filter fun g => !g.Printed) = rest :=
    List.filter_eq_self.mpr fun g hg => by simp [hall g hg]
  simp only [printAll, printIfNotPrinted_of_unprinted (-1) g0 h0p, if_pos rfl,
    if_true]
  rw [printAll_of_ne rest g0.Pts h0, hfilter]
  simp [markPrinted]

/-- In the vector-carrying branch (`frameIndex ≠ -1`, non-empty vector list),
the call always ends by printing `cur` and leaving `prev = [cur]` with `cur`
marked printed; `cur`'s record is the last one emitted by the call. -/
lemma step_vector_branch (cfg : Config) (st : PipelineState) (fi pts : Int)
    (pt : Char) (mvs : List AVMotionVector) (hfi : fi ≠ -1) (hne : mvs ≠ []) :
    (output_vectors_std cfg st fi pts pt mvs).1.prev
        = [markPrinted (mkCur cfg fi pts pt mvs)] ∧
    (output_vectors_std cfg st fi pts pt mvs).2.getLast? =
        some { headerPts :=
                 pts - (output_vectors_std cfg st fi pts pt mvs).1.firstPts,
               frame := markPrinted (mkCur cfg fi pts pt mvs) } := by
  have hne' : mvs.isEmpty = false := by simpa using hne
  have hcurP : (mkCur cfg fi pts pt mvs).Printed = false :=
    (mkCur_meta cfg fi pts pt mvs).2.2.2.2.2.2
  have hcurPts : (mkCur cfg fi pts pt mvs).Pts = pts :=
    (mkCur_meta cfg fi pts pt mvs).2.2.1
  unfold output_vectors_std
  rw [if_neg hfi, hne']
  simp only [Bool.false_eq_true, if_false]
  by_cases hc : st.prev.length = 2 ∧ st.prev.headI.Empty = false
  · rw [if_pos hc]
    simp only [printIfNotPrinted_of_unprinted _ _ hcurP]
    simp [markPrinted, hcurPts, List.getLast?_concat]
  · rw [if_neg hc]
    simp only [printIfNotPrinted_of_unprinted _ _ hcurP]
    simp [markPrinted, hcurPts, List.getLast?_concat]

/-! ## Helper lemmas: the fill pass never disturbs occupied cells -/

lemma upd_apply {α : Type} (f : Nat → Nat → α) (i j a b : Nat) (v : α) :
    upd f i j v a b = if a = i ∧ b = j then v else f a b := rfl

/-- `fillCell` leaves a cell with non-zero occupancy completely unchanged. -/
lemma fillCell_occupied (g : FrameInfo) (c : Nat × Nat) (a b : Nat)
    (h : g.occupancy a b ≠ 0) :
    (fillCell g c).dx a b = g.dx a b ∧ (fillCell g c).dy a b = g.dy a b ∧
    (fillCell g c).occupancy a b = g.occupancy a b := by
  unfold fillCell
  dsimp only
  split
  case isTrue h0 =>
    have hne : ¬(a = c.1 ∧ b = c.2) := by
      rintro ⟨ha, hb⟩
      exact h (ha ▸ hb ▸ h0)
    split
    · simp [upd_apply, hne]
    · split
      · simp [upd_apply, hne]
      · exact ⟨rfl, rfl, rfl⟩
  case isFalse => exact ⟨rfl, rfl, rfl⟩

lemma foldl_fillCell_occupied (l : List (Nat × Nat)) (g : FrameInfo) (a b : Nat)
    (h : g.occupancy a b ≠ 0) :
    (l.foldl fillCell g).dx a b = g.dx a b ∧
    (l.foldl fillCell g).dy a b = g.dy a b ∧
    (l.foldl fillCell g).occupancy a b = g.occupancy a b := by
  induction l generalizing g with
  | nil => exact ⟨rfl, rfl, rfl⟩
  | cons c l ih =>
    simp only [List.foldl_cons]
    obtain ⟨m1, m2, m3⟩ := fillCell_occupied g c a b h
    obtain ⟨h1, h2, h3⟩ := ih (fillCell g c) (by rw [m3]; exact h)
    exact ⟨h1.trans m1, h2.trans m2, h3.trans m3⟩

/-- The whole fill pass leaves a cell with non-zero occupancy unchanged. -/
lemma fill_occupied (g : FrameInfo) (a b : Nat) (h : g.occupancy a b ≠ 0) :
    g.FillInSomeMissingVectorsInGrid8.dx a b = g.dx a b ∧
    g.FillInSomeMissingVectorsInGrid8.dy a b = g.dy a b ∧
    g.FillInSomeMissingVectorsInGrid8.occupancy a b = g.occupancy a b := by
  rw [fill_eq_two_sweeps]
  obtain ⟨m1, m2, m3⟩ := foldl_fillCell_occupied (interiorCells g.Shape) g a b h
  have hs : fillSweep g = (interiorCells g.Shape).foldl fillCell g := rfl
  have hshape : (fillSweep g).Shape = g.Shape := (fillSweep_meta g).2.1
  obtain ⟨h1, h2, h3⟩ :=
    foldl_fillCell_occupied (interiorCells (fillSweep g).Shape) (fillSweep g) a b
      (by rw [hs, m3]; exact h)
  refine ⟨?_, ?_, ?_⟩
  · calc (fillSweep (fillSweep g)).dx a b
        = (fillSweep g).dx a b := h1
      _ = g.dx a b := by rw [hs]; exact m1
  · calc (fillSweep (fillSweep g)).dy a b
        = (fillSweep g).dy a b := h2
      _ = g.dy a b := by rw [hs]; exact m2
  · calc (fillSweep (fillSweep g)).occupancy a b
        = (fillSweep g).occupancy a b := h3
      _ = g.occupancy a b := by rw [hs]; exact m3

/-! ## Helper lemmas: binning occupancy -/

/-- Binning one vector sets occupancy 1 at its clipped cell. -/
lemma binVector_occ (g : FrameInfo) (mv : AVMotionVector) :
    (binVector g mv).occupancy (clipIndex mv.dst_y g.GridStep g.Shape.1)
      (clipIndex mv.dst_x g.GridStep g.Shape.2) = 1 := by
  simp [binVector, upd_apply]

/-- Occupancy 1 is stable under further binning (later vectors either rewrite
the cell with occupancy 1 again or write elsewhere). -/
lemma binAll_occ_one_stable (mvs : List AVMotionVector) (g : FrameInfo)
    (a b : Nat) (h : g.occupancy a b = 1) :
    (binAll g mvs).occupancy a b = 1 := by
  induction mvs generalizing g with
  | nil => exact h
  | cons mv rest ih =>
    simp only [binAll, List.foldl_cons] at *
    apply ih
    simp only [binVector, upd_apply]
    split
    · rfl
    · exact h

/-- Every delivered vector leaves occupancy 1 at its clipped cell after the
full binning loop. -/
lemma binAll_occ_of_mem (mvs : List AVMotionVector) (g : FrameInfo)
    (mv : AVMotionVector) (hmv : mv ∈ mvs) :
    (binAll g mvs).occupancy (clipIndex mv.dst_y g.GridStep g.Shape.1)
      (clipIndex mv.dst_x g.GridStep g.Shape.2) = 1 := by
  induction mvs generalizing g with
  | nil => cases hmv
  | cons mv' rest ih =>
    rcases List.mem_cons.mp hmv with h | h
    · subst h
      simp only [binAll, List.foldl_cons]
      exact binAll_occ_one_stable rest (binVector g mv) _ _ (binVector_occ g mv)
    · simp only [binAll, List.foldl_cons]
      have := ih (binVector g mv') h
      simpa only [binVector] using this

/-- The cell of a delivered vector after `mkCur`: still occupancy 1 (binning
wrote 1 there; the fill pass never touches occupied cells). -/
lemma mkCur_occ_of_mem (cfg : Config) (frameIndex pts : Int) (pictType : Char)
    (mvs : List AVMotionVector) (mv : AVMotionVector) (hmv : mv ∈ mvs) :
    (mkCur cfg frameIndex pts pictType mvs).occupancy
      (clipIndex mv.dst_y cfg.gridStep cfg.shape.1)
      (clipIndex mv.dst_x cfg.gridStep cfg.shape.2) = 1 := by
  have hocc := binAll_occ_of_mem mvs (initCur cfg frameIndex pts pictType) mv hmv
  rw [show (initCur cfg frameIndex pts pictType).GridStep = cfg.gridStep from rfl,
      show (initCur cfg frameIndex pts pictType).Shape = cfg.shape from rfl] at hocc
  unfold mkCur
  dsimp only
  split
  · have := (fill_occupied (binAll (initCur cfg frameIndex pts pictType) mvs)
      (clipIndex mv.dst_y cfg.gridStep cfg.shape.1)
      (clipIndex mv.dst_x cfg.gridStep cfg.shape.2) (by rw [hocc]; simp)).2.2
    rw [this]
    exact hocc
  · exact hocc

/-! ## C3: grid binning and the negative-destination slip -/

/-- **C3** (demonstration of the divergence): in a 64×64 frame at the default
grid step 16 (shape 4×4), a decoder vector with destination `(8, -8)` is
stored at row 3 (= rows−1), not at row 0 as the claim states: the `int16_t`
coordinate is converted to `size_t` before the division, so `-8` wraps to
2^64−8 and the `min` clamps it to the last row.  (The `std::max(size_t(0),…)`
in the source is a no-op on the unsigned type.)  The remaining parts of the
claim do hold, also shown here on concrete inputs: a large positive
destination clamps to the last row, the cell's occupancy is set to 1, and of
two vectors mapping to the same cell the later one wins. -/
theorem C3_negative_dst_y_lands_in_last_row :
    (Config.shape { forceGrid8 := false, frameWidth := 64, frameHeight := 64 }
        = (4, 4)) ∧
    clipIndex (-8) 16 4 = 3 ∧
    ((mkCur { forceGrid8 := false, frameWidth := 64, frameHeight := 64 } 1 0 'I'
        [{ src_x := 8, src_y := 0, dst_x := 8, dst_y := -8 }]).occupancy 3 0 = 1 ∧
     (mkCur { forceGrid8 := false, frameWidth := 64, frameHeight := 64 } 1 0 'I'
        [{ src_x := 8, src_y := 0, dst_x := 8, dst_y := -8 }]).dy 3 0 = -8 ∧
     (mkCur { forceGrid8 := false, frameWidth := 64, frameHeight := 64 } 1 0 'I'
        [{ src_x := 8, src_y := 0, dst_x := 8, dst_y := -8 }]).occupancy 0 0 = 0 ∧
     (mkCur { forceGrid8 := false, frameWidth := 64, frameHeight := 64 } 1 0 'I'
        [{ src_x := 8, src_y := 0, dst_x := 8, dst_y := -8 }]).dy 0 0 = 0) ∧
    clipIndex 1000 16 4 = 3 ∧
    ((mkCur { forceGrid8 := false, frameWidth := 64, frameHeight := 64 } 1 0 'I'
        [{ src_x := 0, src_y := 0, dst_x := 8, dst_y := 8 },
         { src_x := 4, src_y := 4, dst_x := 8, dst_y := 8 }]).dx 0 0 = 4 ∧
     (mkCur { forceGrid8 := false, frameWidth := 64, frameHeight := 64 } 1 0 'I'
        [{ src_x := 0, src_y := 0, dst_x := 8, dst_y := 8 },
         { src_x := 4, src_y := 4, dst_x := 8, dst_y := 8 }]).occupancy 0 0 = 1) := by
  decide

/-! ## C10: zero-displacement vectors still occupy the grid -/

/-- **C10**: binning sets occupancy 1 and `Empty = false` for every delivered
vector — the displacement value is never inspected — so a frame whose
non-empty vector list consists only of zero-displacement vectors takes the
vector-carrying path: its record is the last one emitted by its own call,
the buffer is cleared down to exactly this frame, and the buffered copy is
non-empty (fit to serve as the `prev[0]` endpoint of a later interpolation). -/
theorem C10_zero_displacement_frame_takes_vector_path
    (cfg : Config) (st : PipelineState) (frameIndex pts : Int) (pictType : Char)
    (mvs : List AVMotionVector) (hfi : frameIndex ≠ -1) (hmvs : mvs ≠ [])
    (hzero : ∀ mv ∈ mvs, mv.dst_x - mv.src_x = 0 ∧ mv.dst_y - mv.src_y = 0) :
    (mkCur cfg frameIndex pts pictType mvs).Empty = false ∧
    (∀ mv ∈ mvs,
      (mkCur cfg frameIndex pts pictType mvs).occupancy
        (clipIndex mv.dst_y cfg.gridStep cfg.shape.1)
        (clipIndex mv.dst_x cfg.gridStep cfg.shape.2) = 1) ∧
    (output_vectors_std cfg st frameIndex pts pictType mvs).1.prev =
      [markPrinted (mkCur cfg frameIndex pts pictType mvs)] ∧
    (markPrinted (mkCur cfg frameIndex pts pictType mvs)).Empty = false ∧
    (output_vectors_std cfg st frameIndex pts pictType mvs).2.getLast? =
      some { headerPts :=
               pts - (output_vectors_std cfg st frameIndex pts pictType mvs).1.firstPts,
             frame := markPrinted (mkCur cfg frameIndex pts pictType mvs) } := by
  obtain ⟨hA, hB⟩ := step_vector_branch cfg st frameIndex pts pictType mvs hfi hmvs
  refine ⟨mkCur_empty_false cfg frameIndex pts pictType mvs hmvs,
    fun mv hmv => mkCur_occ_of_mem cfg frameIndex pts pictType mvs mv hmv,
    hA, ?_, hB⟩
  exact mkCur_empty_false cfg frameIndex pts pictType mvs hmvs

/-- Witness for C10 at a concrete input: one zero-displacement vector. -/
theorem C10_witness :
    ((1 : Int) ≠ -1 ∧
     [({ src_x := 8, src_y := 8, dst_x := 8, dst_y := 8 } : AVMotionVector)] ≠ [] ∧
     (∀ mv ∈ [({ src_x := 8, src_y := 8, dst_x := 8, dst_y := 8 } : AVMotionVector)],
       mv.dst_x - mv.src_x = 0 ∧ mv.dst_y - mv.src_y = 0)) ∧
    ((mkCur { forceGrid8 := false, frameWidth := 64, frameHeight := 64 } 1 0 'I'
        [{ src_x := 8, src_y := 8, dst_x := 8, dst_y := 8 }]).Empty = false ∧
     (∀ mv ∈ [({ src_x := 8, src_y := 8, dst_x := 8, dst_y := 8 } : AVMotionVector)],
       (mkCur { forceGrid8 := false, frameWidth := 64, frameHeight := 64 } 1 0 'I'
          [{ src_x := 8, src_y := 8, dst_x := 8, dst_y := 8 }]).occupancy
         (clipIndex mv.dst_y
           (Config.gridStep { forceGrid8 := false, frameWidth := 64, frameHeight := 64 })
           (Config.shape { forceGrid8 := false, frameWidth := 64, frameHeight := 64 }).1)
         (clipIndex mv.dst_x
           (Config.gridStep { forceGrid8 := false, frameWidth := 64, frameHeight := 64 })
           (Config.shape { forceGrid8 := false, frameWidth := 64, frameHeight := 64 }).2) = 1) ∧
     (output_vectors_std { forceGrid8 := false, frameWidth := 64, frameHeight := 64 }
        initPipeline 1 0 'I'
        [{ src_x := 8, src_y := 8, dst_x := 8, dst_y := 8 }]).1.prev =
       [markPrinted (mkCur { forceGrid8 := false, frameWidth := 64, frameHeight := 64 } 1 0 'I'
          [{ src_x := 8, src_y := 8, dst_x := 8, dst_y := 8 }])] ∧
     (markPrinted (mkCur { forceGrid8 := false, frameWidth := 64, frameHeight := 64 } 1 0 'I'
        [{ src_x := 8, src_y := 8, dst_x := 8, dst_y := 8 }])).Empty = false ∧
     (output_vectors_std { forceGrid8 := false, frameWidth := 64, frameHeight := 64 }
        initPipeline 1 0 'I'
        [{ src_x := 8, src_y := 8, dst_x := 8, dst_y := 8 }]).2.getLast? =
       some { headerPts :=
                0 - (output_vectors_std { forceGrid8 := false, frameWidth := 64, frameHeight := 64 }
                      initPipeline 1 0 'I'
                      [{ src_x := 8, src_y := 8, dst_x := 8, dst_y := 8 }]).1.firstPts,
              frame := markPrinted (mkCur { forceGrid8 := false, frameWidth := 64, frameHeight := 64 } 1 0 'I'
                 [{ src_x := 8, src_y := 8, dst_x := 8, dst_y := 8 }]) }) :=
  ⟨⟨by decide, by decide, by decide⟩,
   C10_zero_displacement_frame_takes_vector_path
     { forceGrid8 := false, frameWidth := 64, frameHeight := 64 } initPipeline 1 0 'I'
     [{ src_x := 8, src_y := 8, dst_x := 8, dst_y := 8 }]
     (by decide) (by decide) (by decide)⟩

/-! ## C1: the interpolation case of the arranged pipeline -/

/-- **C1**: when a vector-carrying frame arrives while `prev = [p0, p1]` with
`p0` non-empty, the call emits exactly two records: first the middle grid
`p1`, rewritten by `InterpolateFlow` — every in-shape cell becomes the
truncating average of the aligned cells of `p0` and the current binned frame,
the occupancy array is untouched, `Empty` becomes false and `Origin` becomes
`"interpolated"` — and then the current frame itself. -/
theorem C1_interpolated_middle_emission
    (cfg : Config) (st : PipelineState) (p0 p1 : FrameInfo)
    (frameIndex pts : Int) (pictType : Char) (mvs : List AVMotionVector)
    (hprev : st.prev = [p0, p1]) (h0 : p0.Empty = false)
    (hfi : frameIndex ≠ -1) (hmvs : mvs ≠ []) (hp1 : p1.Printed = false) :
    ∃ e1 e2 : Emitted,
      (output_vectors_std cfg st frameIndex pts pictType mvs).2 = [e1, e2] ∧
      e1.frame =
        markPrinted (FrameInfo.InterpolateFlow p1 p0
          (mkCur cfg frameIndex pts pictType mvs)) ∧
      e1.frame.FrameIndex = p1.FrameIndex ∧
      e1.frame.Pts = p1.Pts ∧
      e1.frame.Origin = "interpolated" ∧
      e1.frame.Empty = false ∧
      e1.frame.occupancy = p1.occupancy ∧
      (∀ i j, i < p1.Shape.1 → j < p1.Shape.2 →
        e1.frame.dx i j =
          Int.tdiv (p0.dx i j + (mkCur cfg frameIndex pts pictType mvs).dx i j) 2 ∧
        e1.frame.dy i j =
          Int.tdiv (p0.dy i j + (mkCur cfg frameIndex pts pictType mvs).dy i j) 2) ∧
      e2.frame = markPrinted (mkCur cfg frameIndex pts pictType mvs) ∧
      e2.frame.FrameIndex = frameIndex ∧
      (output_vectors_std cfg st frameIndex pts pictType mvs).1.prev =
        [markPrinted (mkCur cfg frameIndex pts pictType mvs)] := by
  have hne' : mvs.isEmpty = false := by simpa using hmvs
  have hcurP : (mkCur cfg frameIndex pts pictType mvs).Printed = false :=
    (mkCur_meta cfg frameIndex pts pictType mvs).2.2.2.2.2.2
  have hcurF : (mkCur cfg frameIndex pts pictType mvs).FrameIndex = frameIndex :=
    (mkCur_meta cfg frameIndex pts pictType mvs).2.2.2.1
  have hcond : st.prev.length = 2 ∧ st.prev.headI.Empty = false := by
    rw [hprev]; exact ⟨rfl, h0⟩
  have hfront : st.prev.headI = p0 := by rw [hprev]; rfl
  have hback : st.prev.getLastI = p1 := by rw [hprev]; rfl
  have hIP : (FrameInfo.InterpolateFlow p1 p0
      (mkCur cfg frameIndex pts pictType mvs)).Printed = false := hp1
  unfold output_vectors_std
  rw [if_neg hfi, hne']
  simp only [Bool.false_eq_true, if_false]
  rw [if_pos hcond, hfront, hback]
  rw [printIfNotPrinted_of_unprinted _ _ hIP]
  dsimp only
  rw [printIfNotPrinted_of_unprinted _ _ hcurP]
  dsimp only
  refine ⟨_, _, rfl, rfl, rfl, rfl, rfl, rfl, rfl, ?_, rfl, hcurF, rfl⟩
  intro i j hi hj
  constructor
  · show (if i < p1.Shape.1 ∧ j < p1.Shape.2 then
        Int.tdiv (p0.dx i j + (mkCur cfg frameIndex pts pictType mvs).dx i j) 2
      else p1.dx i j) = _
    rw [if_pos ⟨hi, hj⟩]
  · show (if i < p1.Shape.1 ∧ j < p1.Shape.2 then
        Int.tdiv (p0.dy i j + (mkCur cfg frameIndex pts pictType mvs).dy i j) 2
      else p1.dy i j) = _
    rw [if_pos ⟨hi, hj⟩]

/-- Witness for C1 at a concrete input: `prev = [sampleP0, sampleP1]` with a
printed non-empty front grid, and an arriving frame with one vector. -/
theorem C1_witness :
    (({ prev := [sampleP0, sampleP1], firstPts := 0 } : PipelineState).prev
        = [sampleP0, sampleP1] ∧
     sampleP0.Empty = false ∧
     (3 : Int) ≠ -1 ∧
     [({ src_x := 0, src_y := 0, dst_x := 8, dst_y := 8 } : AVMotionVector)] ≠ [] ∧
     sampleP1.Printed = false) ∧
    (∃ e1 e2 : Emitted,
      (output_vectors_std cfgOne { prev := [sampleP0, sampleP1], firstPts := 0 }
          3 2 'P' [{ src_x := 0, src_y := 0, dst_x := 8, dst_y := 8 }]).2 = [e1, e2] ∧
      e1.frame =
        markPrinted (FrameInfo.InterpolateFlow sampleP1 sampleP0
          (mkCur cfgOne 3 2 'P' [{ src_x := 0, src_y := 0, dst_x := 8, dst_y := 8 }])) ∧
      e1.frame.FrameIndex = sampleP1.FrameIndex ∧
      e1.frame.Pts = sampleP1.Pts ∧
      e1.frame.Origin = "interpolated" ∧
      e1.frame.Empty = false ∧
      e1.frame.occupancy = sampleP1.occupancy ∧
      (∀ i j, i < sampleP1.Shape.1 → j < sampleP1.Shape.2 →
        e1.frame.dx i j =
          Int.tdiv (sampleP0.dx i j +
            (mkCur cfgOne 3 2 'P'
              [{ src_x := 0, src_y := 0, dst_x := 8, dst_y := 8 }]).dx i j) 2 ∧
        e1.frame.dy i j =
          Int.tdiv (sampleP0.dy i j +
            (mkCur cfgOne 3 2 'P'
              [{ src_x := 0, src_y := 0, dst_x := 8, dst_y := 8 }]).dy i j) 2) ∧
      e2.frame = markPrinted (mkCur cfgOne 3 2 'P'
        [{ src_x := 0, src_y := 0, dst_x := 8, dst_y := 8 }]) ∧
      e2.frame.FrameIndex = 3 ∧
      (output_vectors_std cfgOne { prev := [sampleP0, sampleP1], firstPts := 0 }
          3 2 'P' [{ src_x := 0, src_y := 0, dst_x := 8, dst_y := 8 }]).1.prev =
        [markPrinted (mkCur cfgOne 3 2 'P'
          [{ src_x := 0, src_y := 0, dst_x := 8, dst_y := 8 }])]) :=
  ⟨⟨rfl, rfl, by decide, by decide, rfl⟩,
   C1_interpolated_middle_emission cfgOne
     { prev := [sampleP0, sampleP1], firstPts := 0 } sampleP0 sampleP1 3 2 'P'
     [{ src_x := 0, src_y := 0, dst_x := 8, dst_y := 8 }]
     rfl rfl (by decide) (by decide) rfl⟩

/-! ## C2: the neighbor-fill pass -/

/-- `fillCell` writes only at the visited cell. -/
lemma fillCell_preserves_other (g : FrameInfo) (c : Nat × Nat) (a b : Nat)
    (h : ¬(a = c.1 ∧ b = c.2)) : cellOf (fillCell g c) a b = cellOf g a b := by
  unfold cellOf fillCell
  dsimp only
  split
  · split
    · simp [upd_apply, h]
    · split
      · simp [upd_apply, h]
      · rfl
  · rfl

/-- A fold of `fillCell` over cells other than `(a, b)` does not change the
cell `(a, b)`. -/
lemma foldl_fillCell_not_mem (l : List (Nat × Nat)) (g : FrameInfo) (a b : Nat)
    (hc : ∀ x ∈ l, ¬(a = x.1 ∧ b = x.2)) :
    cellOf (l.foldl fillCell g) a b = cellOf g a b := by
  induction l generalizing g with
  | nil => rfl
  | cons c l ih =>
    simp only [List.foldl_cons]
    rw [ih (fillCell g c) fun x hx => hc x (List.mem_cons_of_mem c hx)]
    exact fillCell_preserves_other g c a b (hc c (List.mem_cons_self c l))

/-- Splitting a fold of `fillCell` at the unique occurrence of a visited
cell: the final value at that cell is produced by its own visit (later
visits write elsewhere). -/
lemma foldl_fillCell_split (l1 l2 : List (Nat × Nat)) (g : FrameInfo)
    (c : Nat × Nat) (hc : c ∉ l2) :
    cellOf (List.foldl fillCell g (l1 ++ c :: l2)) c.1 c.2 =
      cellOf (fillCell (l1.foldl fillCell g) c) c.1 c.2 := by
  rw [List.foldl_append, List.foldl_cons]
  exact foldl_fillCell_not_mem l2 _ c.1 c.2 fun x hx heq =>
    hc (by cases c; cases x; simp_all)

/-- Membership in the interior-cell list matches the loop bounds
`1 ≤ i < rows−1`, `1 ≤ j < cols−1`. -/
lemma mem_interiorCells (shape : Nat × Nat) (i j : Nat) :
    (i, j) ∈ interiorCells shape ↔
      1 ≤ i ∧ i ≤ shape.1 - 2 ∧ 1 ≤ j ∧ j ≤ shape.2 - 2 := by
  simp only [interiorCells, List.mem_flatMap, List.mem_map, List.mem_range'_1,
    Prod.mk.injEq]
  constructor
  · rintro ⟨i', hi', j', hj', hji, hjj⟩
    subst hji
    subst hjj
    omega
  · rintro ⟨h1, h2, h3, h4⟩
    exact ⟨i, by omega, j, by omega, rfl, rfl⟩

/-- The interior-cell list enumerates each cell exactly once. -/
lemma interiorCells_nodup (shape : Nat × Nat) : (interiorCells shape).Nodup := by
  unfold interiorCells
  rw [List.nodup_flatMap]
  constructor
  · intro i _
    exact (List.nodup_range' ..).map fun a b hab => by
      simpa using congrArg Prod.snd hab
  · have hnd : (List.range' 1 (shape.1 - 2)).Nodup := List.nodup_range' ..
    refine hnd.imp ?_
    intro a b hab
    intro x hxa hxb
    simp only [Function.onFun, List.mem_map] at hxa hxb
    obtain ⟨ja, _, hja⟩ := hxa
    obtain ⟨jb, _, hjb⟩ := hxb
    apply hab
    have := hja.trans hjb.symm
    simpa using congrArg Prod.fst this

/-- A cell outside the interior list is untouched by one sweep. -/
lemma fillSweep_not_mem (g : FrameInfo) (i j : Nat)
    (h : (i, j) ∉ interiorCells g.Shape) :
    cellOf (fillSweep g) i j = cellOf g i j := by
  unfold fillSweep
  exact foldl_fillCell_not_mem _ g i j fun x hx hx' => by
    apply h
    obtain ⟨h1, h2⟩ := hx'
    subst h1
    subst h2
    simpa using hx

/-- The value of an interior cell after one sweep is produced by the single
visit of that cell, applied to the in-place state left by the previously
visited cells. -/
lemma fillSweep_visit (g : FrameInfo) (c : Nat × Nat)
    (hmem : c ∈ interiorCells g.Shape) :
    ∃ l1 l2, interiorCells g.Shape = l1 ++ c :: l2 ∧ c ∉ l1 ∧ c ∉ l2 ∧
      cellOf (fillSweep g) c.1 c.2 =
        cellOf (fillCell (l1.foldl fillCell g) c) c.1 c.2 := by
  obtain ⟨l1, l2, hsplit⟩ := List.append_of_mem hmem
  have hnd := interiorCells_nodup g.Shape
  rw [hsplit, List.nodup_append] at hnd
  have hc2 : c ∉ l2 := (List.nodup_cons.mp hnd.2.1).1
  have hc1 : c ∉ l1 := fun h => hnd.2.2 h (List.mem_cons_self c l2)
  refine ⟨l1, l2, hsplit, hc1, hc2, ?_⟩
  unfold fillSweep
  rw [hsplit]
  exact foldl_fillCell_split l1 l2 g c hc2

/-- **C2**: the neighbor-fill pass.  The current grid is passed through
`FillInSomeMissingVectorsInGrid8` exactly when the grid step is 8 (i.e.
exactly under `--grid8x8`), immediately after binning — every later decision
of the pipeline sees the filled grid.  The pass is exactly two in-place
sweeps in row-major order over the interior cells `1 ≤ i ≤ rows−2`,
`1 ≤ j ≤ cols−2`, each cell visited once per sweep; a visited cell with
occupancy 0 whose left and right neighbors are both occupied becomes their
truncating average with occupancy 2, otherwise the same for top/bottom;
horizontal takes precedence; occupied cells and edge cells are never
modified; and a cell filled by the first sweep can serve as a donor in the
second (shown on `sampleGrid8`). -/
theorem C2_neighbor_fill_pass :
    (∀ (cfg : Config) (fi pts : Int) (pt : Char) (mvs : List AVMotionVector),
      mkCur cfg fi pts pt mvs =
        (if cfg.gridStep = 8
         then (binAll (initCur cfg fi pts pt) mvs).FillInSomeMissingVectorsInGrid8
         else binAll (initCur cfg fi pts pt) mvs)) ∧
    (∀ cfg : Config, cfg.gridStep = 8 ↔ cfg.forceGrid8 = true) ∧
    (∀ g : FrameInfo, g.FillInSomeMissingVectorsInGrid8 = fillSweep (fillSweep g)) ∧
    (∀ g : FrameInfo, fillSweep g = (interiorCells g.Shape).foldl fillCell g) ∧
    (∀ (shape : Nat × Nat) (i j : Nat),
      (i, j) ∈ interiorCells shape ↔
        1 ≤ i ∧ i ≤ shape.1 - 2 ∧ 1 ≤ j ∧ j ≤ shape.2 - 2) ∧
    (∀ shape : Nat × Nat, (interiorCells shape).Nodup) ∧
    (∀ (g : FrameInfo) (i j : Nat),
      i = 0 ∨ i = g.Shape.1 - 1 ∨ j = 0 ∨ j = g.Shape.2 - 1 →
      cellOf g.FillInSomeMissingVectorsInGrid8 i j = cellOf g i j) ∧
    (∀ (g : FrameInfo) (i j : Nat), g.occupancy i j ≠ 0 →
      cellOf g.FillInSomeMissingVectorsInGrid8 i j = cellOf g i j) ∧
    (∀ (g : FrameInfo) (i j : Nat), g.occupancy i j = 0 →
      g.occupancy i (j - 1) ≠ 0 → g.occupancy i (j + 1) ≠ 0 →
      cellOf (fillCell g (i, j)) i j =
        (Int.tdiv (g.dx i (j - 1) + g.dx i (j + 1)) 2,
         Int.tdiv (g.dy i (j - 1) + g.dy i (j + 1)) 2, 2)) ∧
    (∀ (g : FrameInfo) (i j : Nat), g.occupancy i j = 0 →
      ¬(g.occupancy i (j - 1) ≠ 0 ∧ g.occupancy i (j + 1) ≠ 0) →
      g.occupancy (i - 1) j ≠ 0 → g.occupancy (i + 1) j ≠ 0 →
      cellOf (fillCell g (i, j)) i j =
        (Int.tdiv (g.dx (i - 1) j + g.dx (i + 1) j) 2,
         Int.tdiv (g.dy (i - 1) j + g.dy (i + 1) j) 2, 2)) ∧
    (∀ (g : FrameInfo) (i j : Nat), g.occupancy i j = 0 →
      ¬(g.occupancy i (j - 1) ≠ 0 ∧ g.occupancy i (j + 1) ≠ 0) →
      ¬(g.occupancy (i - 1) j ≠ 0 ∧ g.occupancy (i + 1) j ≠ 0) →
      fillCell g (i, j) = g) ∧
    (∀ (g : FrameInfo) (c : Nat × Nat), c ∈ interiorCells g.Shape →
      ∃ l1 l2, interiorCells g.Shape = l1 ++ c :: l2 ∧ c ∉ l1 ∧ c ∉ l2 ∧
        cellOf (fillSweep g) c.1 c.2 =
          cellOf (fillCell (l1.foldl fillCell g) c) c.1 c.2) ∧
    ((fillSweep sampleGrid8).occupancy 1 1 = 0 ∧
     (fillSweep sampleGrid8).occupancy 1 2 = 2 ∧
     (fillSweep (fillSweep sampleGrid8)).occupancy 1 1 = 2 ∧
     (fillSweep (fillSweep sampleGrid8)).dx 1 1 = 5) := by
  refine ⟨?_, ?_, fill_eq_two_sweeps, fun _ => rfl, mem_interiorCells,
    interiorCells_nodup, ?_, ?_, ?_, ?_, ?_, fillSweep_visit, by decide⟩
  · intro cfg fi pts pt mvs
    have h : (binAll (initCur cfg fi pts pt) mvs).GridStep = cfg.gridStep :=
      (binAll_meta mvs _).1
    unfold mkCur
    dsimp only
    rw [h]
  · intro cfg
    obtain ⟨b, w, h⟩ := cfg
    cases b <;> simp [Config.gridStep]
  · intro g i j hedge
    have hshape : (fillSweep g).Shape = g.Shape := (fillSweep_meta g).2.1
    have hnm : (i, j) ∉ interiorCells g.Shape := fun hmem => by
      rw [mem_interiorCells] at hmem
      omega
    rw [fill_eq_two_sweeps]
    rw [fillSweep_not_mem (fillSweep g) i j (by rw [hshape]; exact hnm),
      fillSweep_not_mem g i j hnm]
  · intro g i j hocc
    obtain ⟨h1, h2, h3⟩ := fill_occupied g i j hocc
    unfold cellOf
    rw [h1, h2, h3]
  · intro g i j h0 hl hr
    unfold cellOf fillCell
    dsimp only
    rw [if_pos h0, if_pos ⟨hl, hr⟩]
    simp [upd_apply]
  · intro g i j h0 hH hu hd
    unfold cellOf fillCell
    dsimp only
    rw [if_pos h0, if_neg hH, if_pos ⟨hu, hd⟩]
    simp [upd_apply]
  · intro g i j h0 hH hV
    unfold fillCell
    dsimp only
    rw [if_pos h0, if_neg hH, if_neg hV]

/-- Witness for C2 at concrete inputs: an edge cell and an occupied cell of
`sampleGrid8` are untouched by the pass; the horizontal rule fires at (1,1)
of the once-swept grid; the membership bounds at (1,2) of a 3×5 shape. -/
theorem C2_witness :
    cellOf sampleGrid8.FillInSomeMissingVectorsInGrid8 0 0 = cellOf sampleGrid8 0 0 ∧
    cellOf sampleGrid8.FillInSomeMissingVectorsInGrid8 1 0 = cellOf sampleGrid8 1 0 ∧
    cellOf (fillCell (fillSweep sampleGrid8) (1, 1)) 1 1 =
      (Int.tdiv ((fillSweep sampleGrid8).dx 1 0 + (fillSweep sampleGrid8).dx 1 2) 2,
       Int.tdiv ((fillSweep sampleGrid8).dy 1 0 + (fillSweep sampleGrid8).dy 1 2) 2,
       2) ∧
    ((1, 2) ∈ interiorCells (3, 5) ↔ 1 ≤ 1 ∧ 1 ≤ 3 - 2 ∧ 1 ≤ 2 ∧ 2 ≤ 5 - 2) :=
  ⟨C2_neighbor_fill_pass.2.2.2.2.2.2.1 sampleGrid8 0 0 (Or.inl rfl),
   C2_neighbor_fill_pass.2.2.2.2.2.2.2.1 sampleGrid8 1 0 (by decide),
   C2_neighbor_fill_pass.2.2.2.2.2.2.2.2.1 (fillSweep sampleGrid8) 1 1
     (by decide) (by decide) (by decide),
   C2_neighbor_fill_pass.2.2.2.2.1 (3, 5) 1 2⟩

/-! ## C4: the buffer is NOT bounded by two -/

/-- **C4 counterexample**: three consecutive frames with empty vector lists
leave three FrameGrids in `prev` between calls — the claimed bound of 2 is
violated (and with them the claimed bound of three concurrent grids). -/
theorem C4_counterexample :
    (processCalls { forceGrid8 := false, frameWidth := 64, frameHeight := 64 }
        initPipeline
        [{ frameIndex := 1, pts := 0, pictType := 'I', mvs := [] },
         { frameIndex := 2, pts := 1, pictType := 'B', mvs := [] },
         { frameIndex := 3, pts := 2, pictType := 'B', mvs := [] }]).1.prev.length
      = 3 ∧ ¬(3 ≤ 2) :=
  ⟨by decide, by decide⟩

lemma processCalls_append_fst (cfg : Config) (st : PipelineState)
    (l1 l2 : List Call) :
    (processCalls cfg st (l1 ++ l2)).1 =
      (processCalls cfg (processCalls cfg st l1).1 l2).1 := by
  induction l1 generalizing st with
  | nil => rfl
  | cons c l1 ih =>
    simp only [List.cons_append, processCalls]
    exact ih _

lemma trailingEmptyCount_snoc (l : List Call) (c : Call) :
    trailingEmptyCount (l ++ [c]) =
      if c.mvs.isEmpty then trailingEmptyCount l + 1 else 0 := by
  unfold trailingEmptyCount
  rw [List.reverse_append]
  by_cases h : c.mvs.isEmpty
  · simp [h, List.takeWhile_cons]
  · have h' : c.mvs.isEmpty = false := by simpa using h
    simp [h', List.takeWhile_cons]

/-- Length of `prev` after one call: +1 on an empty vector list, reset to 1
on a non-empty one. -/
lemma step_prev_length (cfg : Config) (st : PipelineState) (fi pts : Int)
    (pt : Char) (mvs : List AVMotionVector) (hfi : fi ≠ -1) :
    (mvs = [] →
      (output_vectors_std cfg st fi pts pt mvs).1.prev.length
        = st.prev.length + 1) ∧
    (mvs ≠ [] →
      (output_vectors_std cfg st fi pts pt mvs).1.prev.length = 1) := by
  constructor
  · intro he
    subst he
    unfold output_vectors_std
    rw [if_neg hfi]
    simp
  · intro hne
    rw [(step_vector_branch cfg st fi pts pt mvs hfi hne).1]
    rfl

/-- If the trailing-empty count is positive, the last call has an empty
vector list. -/
lemma trailing_pos_getLast (l : List Call) (h : trailingEmptyCount l ≠ 0) :
    ∃ g, l.getLast? = some g ∧ g.mvs.isEmpty = true := by
  unfold trailingEmptyCount at h
  cases hr : l.reverse with
  | nil => rw [hr] at h; simp at h
  | cons g tl =>
    rw [hr] at h
    by_cases hp : g.mvs.isEmpty
    · refine ⟨g, ?_, hp⟩
      rw [← List.head?_reverse, hr]
      rfl
    · have hp' : g.mvs.isEmpty = false := by simpa using hp
      rw [List.takeWhile_cons, hp'] at h
      simp at h

/-- **C4 amended**: the buffer is not bounded.  Each call with an empty
vector list appends one grid and each call with vectors resets the buffer to
exactly the current grid, so between calls `prev` holds
`min(#calls, 1 + #trailing-empty-vector calls)` grids — after `k`
consecutive trailing empty-vector frames the buffer holds `k + 1` grids (or
`k` when the whole stream was empty frames), without bound.  The claimed
bound of 2 (and hence of three concurrent grids) holds exactly when no two
consecutive delivered frames both lack vectors. -/
theorem C4_amended_buffer_length
    (cfg : Config) (calls : List Call)
    (hall : ∀ c ∈ calls, c.frameIndex ≠ -1) :
    (processCalls cfg initPipeline calls).1.prev.length =
      min calls.length (1 + trailingEmptyCount calls) ∧
    (List.Chain'
        (fun a b => ¬(a.mvs.isEmpty = true ∧ b.mvs.isEmpty = true)) calls →
      (processCalls cfg initPipeline calls).1.prev.length ≤ 2) := by
  have hmain : ∀ calls : List Call, (∀ c ∈ calls, c.frameIndex ≠ -1) →
      (processCalls cfg initPipeline calls).1.prev.length =
        min calls.length (1 + trailingEmptyCount calls) := by
    intro calls
    induction calls using List.reverseRecOn with
    | nil => intro _; rfl
    | append_singleton l c ih =>
      intro hall'
      have hc : c.frameIndex ≠ -1 := hall' c (by simp)
      have hl := ih fun x hx => hall' x (by simp [hx])
      rw [processCalls_append_fst]
      have hstep := step_prev_length cfg (processCalls cfg initPipeline l).1
        c.frameIndex c.pts c.pictType c.mvs hc
      rw [trailingEmptyCount_snoc]
      by_cases he : c.mvs = []
      · have he' : c.mvs.isEmpty = true := by simp [he]
        rw [if_pos he']
        have : (processCalls cfg (processCalls cfg initPipeline l).1 [c]).1 =
            (output_vectors_std cfg (processCalls cfg initPipeline l).1
              c.frameIndex c.pts c.pictType c.mvs).1 := by
          simp [processCalls]
        rw [this, hstep.1 he, hl]
        simp only [List.length_append, List.length_singleton]
        omega
      · have he' : c.mvs.isEmpty = false := by simpa using he
        rw [if_neg (by simp [he'])]
        have : (processCalls cfg (processCalls cfg initPipeline l).1 [c]).1 =
            (output_vectors_std cfg (processCalls cfg initPipeline l).1
              c.frameIndex c.pts c.pictType c.mvs).1 := by
          simp [processCalls]
        rw [this, hstep.2 he]
        simp only [List.length_append, List.length_singleton]
        omega
  refine ⟨hmain calls hall, ?_⟩
  intro hchain
  rw [hmain calls hall]
  have ht : trailingEmptyCount calls ≤ 1 := by
    by_contra hgt
    have ht2 : trailingEmptyCount calls ≠ 0 := by omega
    obtain ⟨g, hlast, hge⟩ := trailing_pos_getLast calls ht2
    obtain ⟨l', hl'⟩ := List.eq_nil_or_concat calls |>.resolve_left
      (by rintro rfl; simp at hlast)
    obtain ⟨c', hc'⟩ := hl'
    subst hc'
    rw [List.concat_eq_append] at hchain hgt ht2 hlast
    rw [List.getLast?_concat] at hlast
    obtain rfl : c' = g := by injection hlast
    rw [trailingEmptyCount_snoc, if_pos hge] at hgt ht2
    have htl : trailingEmptyCount l' ≠ 0 := by omega
    obtain ⟨g2, hlast2, hge2⟩ := trailing_pos_getLast l' htl
    rw [List.chain'_append] at hchain
    have := hchain.2.2 g2 hlast2 c' (by rfl)
    exact this ⟨hge2, hge⟩
  omega

/-- Witness for the amended C4 at a concrete input: vector / empty / vector
frames give buffer length `min 3 (1+1) = 2`. -/
theorem C4_witness :
    (∀ c ∈ [({ frameIndex := 1, pts := 0, pictType := 'I',
                mvs := [{ src_x := 0, src_y := 0, dst_x := 8, dst_y := 8 }] } : Call),
             { frameIndex := 2, pts := 1, pictType := 'B', mvs := [] },
             { frameIndex := 3, pts := 2, pictType := 'P',
               mvs := [{ src_x := 0, src_y := 0, dst_x := 8, dst_y := 8 }] }],
        c.frameIndex ≠ -1) ∧
    ((processCalls { forceGrid8 := false, frameWidth := 64, frameHeight := 64 }
        initPipeline
        [{ frameIndex := 1, pts := 0, pictType := 'I',
           mvs := [{ src_x := 0, src_y := 0, dst_x := 8, dst_y := 8 }] },
         { frameIndex := 2, pts := 1, pictType := 'B', mvs := [] },
         { frameIndex := 3, pts := 2, pictType := 'P',
           mvs := [{ src_x := 0, src_y := 0, dst_x := 8, dst_y := 8 }] }]).1.prev.length =
      min
        ([({ frameIndex := 1, pts := 0, pictType := 'I',
             mvs := [{ src_x := 0, src_y := 0, dst_x := 8, dst_y := 8 }] } : Call),
          { frameIndex := 2, pts := 1, pictType := 'B', mvs := [] },
          { frameIndex := 3, pts := 2, pictType := 'P',
            mvs := [{ src_x := 0, src_y := 0, dst_x := 8, dst_y := 8 }] }]).length
        (1 + trailingEmptyCount
          [{ frameIndex := 1, pts := 0, pictType := 'I',
             mvs := [{ src_x := 0, src_y := 0, dst_x := 8, dst_y := 8 }] },
           { frameIndex := 2, pts := 1, pictType := 'B', mvs := [] },
           { frameIndex := 3, pts := 2, pictType := 'P',
             mvs := [{ src_x := 0, src_y := 0, dst_x := 8, dst_y := 8 }] }]) ∧
     (List.Chain'
        (fun a b => ¬(a.mvs.isEmpty = true ∧ b.mvs.isEmpty = true))
        [({ frameIndex := 1, pts := 0, pictType := 'I',
            mvs := [{ src_x := 0, src_y := 0, dst_x := 8, dst_y := 8 }] } : Call),
         { frameIndex := 2, pts := 1, pictType := 'B', mvs := [] },
         { frameIndex := 3, pts := 2, pictType := 'P',
           mvs := [{ src_x := 0, src_y := 0, dst_x := 8, dst_y := 8 }] }] →
      (processCalls { forceGrid8 := false, frameWidth := 64, frameHeight := 64 }
          initPipeline
          [{ frameIndex := 1, pts := 0, pictType := 'I',
             mvs := [{ src_x := 0, src_y := 0, dst_x := 8, dst_y := 8 }] },
           { frameIndex := 2, pts := 1, pictType := 'B', mvs := [] },
           { frameIndex := 3, pts := 2, pictType := 'P',
             mvs := [{ src_x := 0, src_y := 0, dst_x := 8, dst_y := 8 }] }]).1.prev.length
        ≤ 2)) :=
  ⟨by decide,
   C4_amended_buffer_length
     { forceGrid8 := false, frameWidth := 64, frameHeight := 64 }
     [{ frameIndex := 1, pts := 0, pictType := 'I',
        mvs := [{ src_x := 0, src_y := 0, dst_x := 8, dst_y := 8 }] },
      { frameIndex := 2, pts := 1, pictType := 'B', mvs := [] },
      { frameIndex := 3, pts := 2, pictType := 'P',
        mvs := [{ src_x := 0, src_y := 0, dst_x := 8, dst_y := 8 }] }]
     (by decide)⟩

/-! ## C7: the duplicate-PTS filter and its -1 sentinel hole -/

/-- **C7 counterexample**: two successive frames with the equal pts value
`-1` are BOTH forwarded (two arranged emissions, no warning): after the first
frame `prev_pts = -1`, which the check `prev_pts != -1` treats as "nothing
seen yet".  The claim's "exactly one emission ... for every pts value the
decoder may deliver, including negative ones" is false at pts = -1, and so is
its "drops every frame whose pts is ≤ the last forwarded pts". -/
theorem C7_counterexample :
    ((processFrames { forceGrid8 := false, frameWidth := 64, frameHeight := 64 }
        false false initMain
        [{ pts := -1, pictType := 'I',
           mvs := [{ src_x := 0, src_y := 0, dst_x := 8, dst_y := 8 }] },
         { pts := -1, pictType := 'I',
           mvs := [{ src_x := 0, src_y := 0, dst_x := 8, dst_y := 8 }] }]).2.1.length
       = 2) ∧
    ((processFrames { forceGrid8 := false, frameWidth := 64, frameHeight := 64 }
        false false initMain
        [{ pts := -1, pictType := 'I',
           mvs := [{ src_x := 0, src_y := 0, dst_x := 8, dst_y := 8 }] },
         { pts := -1, pictType := 'I',
           mvs := [{ src_x := 0, src_y := 0, dst_x := 8, dst_y := 8 }] }]).2.2.2
       = []) ∧
    ¬((2 : Nat) ≤ 1) := by
  decide

/-- **C7 amended**: the dispatcher increments its counter on every delivered
frame; when `prev_pts ≠ -1` and `pts ≤ prev_pts` it drops the frame — no
emitter is invoked, `prev_pts` is unchanged, and a `(frameIndex, pts)`
warning is written unless quiet; otherwise it forwards the frame to the
selected emitter and sets `prev_pts := pts`.  Two successive frames with
equal pts produce exactly one forwarding (the first) *provided that common
pts is not `-1`* — `prev_pts = -1` doubles as the "nothing forwarded yet"
sentinel, so the filter never drops after a frame with pts `-1`. -/
theorem C7_amended_duplicate_filter :
    (∀ (cfg : Config) (raw quiet : Bool) (st : MainState) (f : Frame),
      (frameCallback cfg raw quiet st f).1.frameIndex = st.frameIndex + 1) ∧
    (∀ (cfg : Config) (raw quiet : Bool) (st : MainState) (f : Frame),
      st.prevPts ≠ -1 → f.pts ≤ st.prevPts →
      (frameCallback cfg raw quiet st f).1.pst = st.pst ∧
      (frameCallback cfg raw quiet st f).1.prevPts = st.prevPts ∧
      (frameCallback cfg raw quiet st f).2.1 = [] ∧
      (frameCallback cfg raw quiet st f).2.2.1 = [] ∧
      (frameCallback cfg raw quiet st f).2.2.2 =
        (if quiet then [] else [(st.frameIndex + 1, f.pts)])) ∧
    (∀ (cfg : Config) (quiet : Bool) (st : MainState) (f : Frame),
      ¬(f.pts ≤ st.prevPts ∧ st.prevPts ≠ -1) →
      (frameCallback cfg false quiet st f).1.prevPts = f.pts ∧
      (frameCallback cfg false quiet st f).1.pst =
        (output_vectors_std cfg st.pst (st.frameIndex + 1) f.pts f.pictType f.mvs).1 ∧
      (frameCallback cfg false quiet st f).2.1 =
        (output_vectors_std cfg st.pst (st.frameIndex + 1) f.pts f.pictType f.mvs).2 ∧
      (frameCallback cfg false quiet st f).2.2.2 = []) ∧
    (∀ (cfg : Config) (quiet : Bool) (st : MainState) (f : Frame),
      ¬(f.pts ≤ st.prevPts ∧ st.prevPts ≠ -1) →
      (frameCallback cfg true quiet st f).1.prevPts = f.pts ∧
      (frameCallback cfg true quiet st f).2.2.1 =
        [output_vectors_raw (st.frameIndex + 1) f.pts f.pictType f.mvs] ∧
      (frameCallback cfg true quiet st f).2.1 = []) ∧
    (∀ (cfg : Config) (quiet : Bool) (st : MainState) (f1 f2 : Frame),
      f1.pts = f2.pts → f1.pts ≠ -1 → ¬(f1.pts ≤ st.prevPts ∧ st.prevPts ≠ -1) →
      (processFrames cfg false quiet st [f1, f2]).2.1 =
        (output_vectors_std cfg st.pst (st.frameIndex + 1) f1.pts f1.pictType f1.mvs).2 ∧
      (processFrames cfg false quiet st [f1, f2]).2.2.2 =
        (if quiet then [] else [(st.frameIndex + 2, f2.pts)]) ∧
      (processFrames cfg false quiet st [f1, f2]).1.pst =
        (output_vectors_std cfg st.pst (st.frameIndex + 1) f1.pts f1.pictType f1.mvs).1 ∧
      (processFrames cfg false quiet st [f1, f2]).1.prevPts = f1.pts) := by
  refine ⟨?_, ?_, ?_, ?_, ?_⟩
  · intro cfg raw quiet st f
    unfold frameCallback
    dsimp only
    repeat' split
    all_goals rfl
  · intro cfg raw quiet st f h1 h2
    unfold frameCallback
    dsimp only
    rw [if_pos ⟨h2, h1⟩]
    exact ⟨rfl, rfl, rfl, rfl, rfl⟩
  · intro cfg quiet st f h
    unfold frameCallback
    dsimp only
    rw [if_neg h]
    simp
  · intro cfg quiet st f h
    unfold frameCallback
    dsimp only
    rw [if_neg h]
    simp
  · intro cfg quiet st f1 f2 heq hne h
    unfold processFrames
    dsimp only
    unfold processFrames
    dsimp only
    unfold frameCallback
    dsimp only
    rw [if_neg h]
    simp only [Bool.false_eq_true, if_false]
    have hdrop : f2.pts ≤ f1.pts ∧ f1.pts ≠ -1 := ⟨le_of_eq heq.symm, hne⟩
    rw [if_pos hdrop]
    have h2 : st.frameIndex + 1 + 1 = st.frameIndex + 2 := by omega
    simp [processFrames, h2]

/-- Witness for the amended C7 at a concrete input: two frames with equal
pts 5 from the initial state — the first is forwarded, the second dropped
with one warning. -/
theorem C7_witness :
    (({ pts := 5, pictType := 'I',
        mvs := [{ src_x := 0, src_y := 0, dst_x := 8, dst_y := 8 }] } : Frame).pts =
       ({ pts := 5, pictType := 'P', mvs := [] } : Frame).pts ∧
     ({ pts := 5, pictType := 'I',
        mvs := [{ src_x := 0, src_y := 0, dst_x := 8, dst_y := 8 }] } : Frame).pts ≠ -1 ∧
     ¬(({ pts := 5, pictType := 'I',
          mvs := [{ src_x := 0, src_y := 0, dst_x := 8, dst_y := 8 }] } : Frame).pts
           ≤ initMain.prevPts ∧
        initMain.prevPts ≠ -1)) ∧
    ((processFrames { forceGrid8 := false, frameWidth := 64, frameHeight := 64 }
        false false initMain
        [{ pts := 5, pictType := 'I',
           mvs := [{ src_x := 0, src_y := 0, dst_x := 8, dst_y := 8 }] },
         { pts := 5, pictType := 'P', mvs := [] }]).2.1 =
      (output_vectors_std { forceGrid8 := false, frameWidth := 64, frameHeight := 64 }
        initMain.pst (initMain.frameIndex + 1) 5 'I'
        [{ src_x := 0, src_y := 0, dst_x := 8, dst_y := 8 }]).2 ∧
     (processFrames { forceGrid8 := false, frameWidth := 64, frameHeight := 64 }
        false false initMain
        [{ pts := 5, pictType := 'I',
           mvs := [{ src_x := 0, src_y := 0, dst_x := 8, dst_y := 8 }] },
         { pts := 5, pictType := 'P', mvs := [] }]).2.2.2 =
       (if false then [] else [(initMain.frameIndex + 2, 5)]) ∧
     (processFrames { forceGrid8 := false, frameWidth := 64, frameHeight := 64 }
        false false initMain
        [{ pts := 5, pictType := 'I',
           mvs := [{ src_x := 0, src_y := 0, dst_x := 8, dst_y := 8 }] },
         { pts := 5, pictType := 'P', mvs := [] }]).1.pst =
      (output_vectors_std { forceGrid8 := false, frameWidth := 64, frameHeight := 64 }
        initMain.pst (initMain.frameIndex + 1) 5 'I'
        [{ src_x := 0, src_y := 0, dst_x := 8, dst_y := 8 }]).1 ∧
     (processFrames { forceGrid8 := false, frameWidth := 64, frameHeight := 64 }
        false false initMain
        [{ pts := 5, pictType := 'I',
           mvs := [{ src_x := 0, src_y := 0, dst_x := 8, dst_y := 8 }] },
         { pts := 5, pictType := 'P', mvs := [] }]).1.prevPts = 5) :=
  ⟨⟨rfl, by decide, by decide⟩,
   C7_amended_duplicate_filter.2.2.2.2
     { forceGrid8 := false, frameWidth := 64, frameHeight := 64 } false initMain
     { pts := 5, pictType := 'I',
       mvs := [{ src_x := 0, src_y := 0, dst_x := 8, dst_y := 8 }] }
     { pts := 5, pictType := 'P', mvs := [] }
     rfl (by decide) (by decide)⟩

/-! ## C9: flush on clean end of stream; no flush on decode error -/

/-- Printing a list of grids, for any baseline: the stored-back buffer is the
grids marked printed, and the emitted frames are exactly the previously
unprinted grids, in buffer order. -/
lemma printAll_general (gs : List FrameInfo) : ∀ fp : Int,
    (printAll fp gs).2.1 = gs.map markPrinted ∧
    (printAll fp gs).2.2.map (fun e => e.frame) =
      (gs.filter fun g => !g.Printed).map markPrinted := by
  induction gs with
  | nil => intro fp; exact ⟨rfl, rfl⟩
  | cons g rest ih =>
    intro fp
    by_cases hg : g.Printed = true
    · obtain ⟨h1, h2⟩ := ih fp
      simp only [printAll, printIfNotPrinted_of_printed fp g hg, List.map_cons,
        List.filter_cons, hg, Bool.not_true, markPrinted_of_printed g hg]
      exact ⟨by rw [h1], by simpa using h2⟩
    · have hg' : g.Printed = false := by simpa using hg
      obtain ⟨h1, h2⟩ := ih (if fp = -1 then g.Pts else fp)
      simp only [printAll, printIfNotPrinted_of_unprinted fp g hg',
        List.map_cons, List.filter_cons, hg', Bool.not_false]
      refine ⟨by rw [h1]; rfl, ?_⟩
      simp only [List.map_append, List.map_cons, List.map_nil, if_true]
      rw [h2]
      rfl

/-- **C9**: the flush entry (`frameIndex = -1`) prints every grid remaining
in `prev` in buffer order — the emitter being idempotent, the records
produced are exactly those of the still-unprinted grids (in particular a
trailing frame that arrived without vectors is emitted; concrete
demonstration in the last conjunct), and `prev` is not cleared (the sentinel
grid is appended).  On a decode-loop return that is negative and not
`AVERROR_EOF`, `main` prints the error and exits with code 1 without
invoking the flush — the arranged output is exactly what was emitted before
the error; otherwise, in arranged mode, the flush runs and the process exits
with code 0. -/
theorem C9_flush_and_decode_error :
    (∀ (cfg : Config) (st : PipelineState) (lpts : Int) (lpict : Char)
       (lmvs : List AVMotionVector),
      ((output_vectors_std cfg st (-1) lpts lpict lmvs).2).map (fun e => e.frame) =
        ((st.prev.filter fun g => !g.Printed).map markPrinted) ∧
      (output_vectors_std cfg st (-1) lpts lpict lmvs).1.prev =
        st.prev.map markPrinted ++ [mkCur cfg (-1) lpts lpict lmvs]) ∧
    (∀ (cfg : Config) (raw quiet : Bool) (frames : List Frame) (ret : Int),
      ret < 0 → ret ≠ AVERROR_EOF →
      (runMain cfg raw quiet frames ret).1.exitCode = 1 ∧
      (runMain cfg raw quiet frames ret).1.errorPrinted = true ∧
      (runMain cfg raw quiet frames ret).1.arranged =
        (processFrames cfg raw quiet initMain frames).2.1 ∧
      (runMain cfg raw quiet frames ret).2.pst =
        (processFrames cfg raw quiet initMain frames).1.pst) ∧
    (∀ (cfg : Config) (quiet : Bool) (frames : List Frame) (ret : Int),
      ¬(ret < 0 ∧ ret ≠ AVERROR_EOF) →
      (runMain cfg false quiet frames ret).1.exitCode = 0 ∧
      (runMain cfg false quiet frames ret).1.errorPrinted = false ∧
      (runMain cfg false quiet frames ret).1.arranged =
        (processFrames cfg false quiet initMain frames).2.1 ++
          (output_vectors_std cfg
            (processFrames cfg false quiet initMain frames).1.pst (-1)
            (processFrames cfg false quiet initMain frames).1.lastPts
            (processFrames cfg false quiet initMain frames).1.lastPict
            (processFrames cfg false quiet initMain frames).1.lastMvs).2) ∧
    ((runMain { forceGrid8 := false, frameWidth := 64, frameHeight := 64 }
        false false
        [{ pts := 0, pictType := 'I',
           mvs := [{ src_x := 0, src_y := 0, dst_x := 8, dst_y := 8 }] },
         { pts := 1, pictType := 'B', mvs := [] }]
        AVERROR_EOF).1.arranged.map (fun e => e.frame.FrameIndex) = [1, 2]) := by
  refine ⟨?_, ?_, ?_, by decide⟩
  · intro cfg st lpts lpict lmvs
    unfold output_vectors_std
    rw [if_pos rfl]
    obtain ⟨h1, h2⟩ := printAll_general st.prev st.firstPts
    exact ⟨h2, by rw [← h1]⟩
  · intro cfg raw quiet frames ret h1 h2
    unfold runMain
    rw [if_pos ⟨h1, h2⟩]
    exact ⟨rfl, rfl, rfl, rfl⟩
  · intro cfg quiet frames ret h
    unfold runMain
    rw [if_neg h]
    simp

/-! ## C6: single emission -/

lemma mkCur_empty_of_nil (cfg : Config) (fi pts : Int) (pt : Char) :
    (mkCur cfg fi pts pt []).Empty = true := by
  unfold mkCur
  dsimp only
  split
  · exact (fill_meta _).2.2.2.2.2.2.1
  · rfl

/-- The frame indexes emitted by printing a whole buffer are exactly the
unprinted ones, in order. -/
lemma printAll_idx (gs : List FrameInfo) (fp : Int) :
    (printAll fp gs).2.2.map (fun e => e.frame.FrameIndex) = unprintedIdx gs := by
  have hout := (printAll_general gs fp).2
  have h1 : (printAll fp gs).2.2.map (fun e => e.frame.FrameIndex) =
      ((printAll fp gs).2.2.map (fun e => e.frame)).map (fun g => g.FrameIndex) := by
    rw [List.map_map]
    rfl
  rw [h1, hout, List.map_map]
  rfl

/-- One arranged call, from a buffer in which every non-empty grid is already
printed: the emitted frame indexes followed by the still-unprinted indexes
equal the previously unprinted indexes followed by this call's index — no
grid is lost and none is printed twice — and the buffer property is
preserved. -/
lemma step_emitted_idx (cfg : Config) (st : PipelineState) (c : Call)
    (hfi : c.frameIndex ≠ -1)
    (hInv : ∀ g ∈ st.prev, g.Empty = false → g.Printed = true) :
    (((output_vectors_std cfg st c.frameIndex c.pts c.pictType c.mvs).2.map
        fun e => e.frame.FrameIndex) ++
      unprintedIdx (output_vectors_std cfg st c.frameIndex c.pts c.pictType c.mvs).1.prev =
      unprintedIdx st.prev ++ [c.frameIndex]) ∧
    (∀ g ∈ (output_vectors_std cfg st c.frameIndex c.pts c.pictType c.mvs).1.prev,
      g.Empty = false → g.Printed = true) := by
  have hcurP : (mkCur cfg c.frameIndex c.pts c.pictType c.mvs).Printed = false :=
    (mkCur_meta cfg c.frameIndex c.pts c.pictType c.mvs).2.2.2.2.2.2
  have hcurF : (mkCur cfg c.frameIndex c.pts c.pictType c.mvs).FrameIndex = c.frameIndex :=
    (mkCur_meta cfg c.frameIndex c.pts c.pictType c.mvs).2.2.2.1
  by_cases hne : c.mvs = []
  · have he : c.mvs.isEmpty = true := by simp [hne]
    unfold output_vectors_std
    rw [if_neg hfi, he]
    simp only [if_true]
    constructor
    · simp only [List.map_nil, List.nil_append]
      unfold unprintedIdx
      rw [List.filter_append]
      simp [hcurP, hcurF]
    · intro g hg
      rcases List.mem_append.mp hg with h | h
      · exact hInv g h
      · rcases List.mem_singleton.mp h with rfl
        rw [hne, mkCur_empty_of_nil]
        simp
  · have he : c.mvs.isEmpty = false := by simpa using hne
    unfold output_vectors_std
    rw [if_neg hfi, he]
    simp only [Bool.false_eq_true, if_false]
    by_cases hc : st.prev.length = 2 ∧ st.prev.headI.Empty = false
    · obtain ⟨p0, p1, hp⟩ := List.length_eq_two.mp hc.1
      have hfront : st.prev.headI = p0 := by rw [hp]; rfl
      have hback : st.prev.getLastI = p1 := by rw [hp]; rfl
      have h0 : p0.Empty = false := by rw [← hfront]; exact hc.2
      have hp0P : p0.Printed = true := hInv p0 (by rw [hp]; simp) h0
      rw [if_pos hc, hfront, hback]
      by_cases hP1 : p1.Printed = true
      · have hIP : (FrameInfo.InterpolateFlow p1 p0
            (mkCur cfg c.frameIndex c.pts c.pictType c.mvs)).Printed = true := hP1
        rw [printIfNotPrinted_of_printed _ _ hIP]
        dsimp only
        rw [printIfNotPrinted_of_unprinted _ _ hcurP]
        dsimp only
        constructor
        · unfold unprintedIdx
          rw [hp]
          simp [hp0P, hP1, hcurF]
        · intro g hg
          rcases List.mem_singleton.mp hg with rfl
          intro _
          rfl

      · have hP1' : p1.Printed = false := by simpa using hP1
        have hIP : (FrameInfo.InterpolateFlow p1 p0
            (mkCur cfg c.frameIndex c.pts c.pictType c.mvs)).Printed = false := hP1'
        rw [printIfNotPrinted_of_unprinted _ _ hIP]
        dsimp only
        rw [printIfNotPrinted_of_unprinted _ _ hcurP]
        dsimp only
        have hIF : (FrameInfo.InterpolateFlow p1 p0
            (mkCur cfg c.frameIndex c.pts c.pictType c.mvs)).FrameIndex
              = p1.FrameIndex := rfl
        constructor
        · unfold unprintedIdx
          rw [hp]
          simp [hp0P, hP1', hcurF, hIF]
        · intro g hg
          rcases List.mem_singleton.mp hg with rfl
          intro _
          rfl
    · rw [if_neg hc]
      dsimp only
      rw [printIfNotPrinted_of_unprinted _ _ hcurP]
      dsimp only
      constructor
      · rw [List.map_append, printAll_idx]
        simp [unprintedIdx, hcurF]
      · intro g hg
        rcases List.mem_singleton.mp hg with rfl
        intro _
        rfl

/-- Processing a list of real frames preserves the buffer property and the
emission ledger: emitted indexes plus still-unprinted ones equal the indexes
already pending plus the new calls, in order. -/
lemma processCalls_emitted_idx (cfg : Config) :
    ∀ (calls : List Call) (st : PipelineState),
    (∀ c ∈ calls, c.frameIndex ≠ -1) →
    (∀ g ∈ st.prev, g.Empty = false → g.Printed = true) →
    (((processCalls cfg st calls).2.map fun e => e.frame.FrameIndex) ++
        unprintedIdx (processCalls cfg st calls).1.prev =
      unprintedIdx st.prev ++ calls.map Call.frameIndex) ∧
    (∀ g ∈ (processCalls cfg st calls).1.prev, g.Empty = false → g.Printed = true) := by
  intro calls
  induction calls with
  | nil => intro st _ hInv; exact ⟨by simp [processCalls], hInv⟩
  | cons c rest ih =>
    intro st hall hInv
    have hc : c.frameIndex ≠ -1 := hall c (by simp)
    obtain ⟨hstep, hInv'⟩ := step_emitted_idx cfg st c hc hInv
    obtain ⟨hih, hInv''⟩ := ih
      (output_vectors_std cfg st c.frameIndex c.pts c.pictType c.mvs).1
      (fun x hx => hall x (by simp [hx])) hInv'
    refine ⟨?_, hInv''⟩
    have hred1 : (processCalls cfg st (c :: rest)).1.prev =
        (processCalls cfg
          (output_vectors_std cfg st c.frameIndex c.pts c.pictType c.mvs).1
          rest).1.prev := rfl
    have hred2 : (processCalls cfg st (c :: rest)).2 =
        (output_vectors_std cfg st c.frameIndex c.pts c.pictType c.mvs).2 ++
        (processCalls cfg
          (output_vectors_std cfg st c.frameIndex c.pts c.pictType c.mvs).1
          rest).2 := rfl
    rw [hred2, hred1, List.map_append, List.append_assoc, hih,
      ← List.append_assoc, hstep, List.append_assoc]
    rfl

/-- **C6 counterexample**: the flush call itself constructs a FrameGrid (the
sentinel, `frame_index = -1`) which is pushed into `prev` and never emitted:
after a one-frame run plus flush, the final buffer ends with an unprinted
grid of index −1 while the output contains exactly the one record of frame 1
— so it is not true that every FrameGrid created by the pipeline gets a
header line. -/
theorem C6_counterexample :
    ((runArranged { forceGrid8 := false, frameWidth := 64, frameHeight := 64 }
        [{ frameIndex := 1, pts := 0, pictType := 'I',
           mvs := [{ src_x := 0, src_y := 0, dst_x := 8, dst_y := 8 }] }]).1.prev.getLast?.map
        (fun g => (g.FrameIndex, g.Printed))) = some (-1, false) ∧
    ((runArranged { forceGrid8 := false, frameWidth := 64, frameHeight := 64 }
        [{ frameIndex := 1, pts := 0, pictType := 'I',
           mvs := [{ src_x := 0, src_y := 0, dst_x := 8, dst_y := 8 }] }]).2.map
        (fun e => e.frame.FrameIndex)) = [1] := by
  decide

/-- **C6 amended**: every FrameGrid created for a *delivered video frame* is
emitted exactly once over a clean run including the flush: the sequence of
emitted frame indexes equals the sequence of delivered frame indexes; the
emitter is a no-op on an already-printed grid; no record carries the
sentinel index −1 — but the synthetic flush-record FrameGrid itself is
created, buffered unprinted, and never emitted. -/
theorem C6_amended_single_emission (cfg : Config) (calls : List Call)
    (hall : ∀ c ∈ calls, c.frameIndex ≠ -1) :
    ((runArranged cfg calls).2.map fun e => e.frame.FrameIndex) =
      calls.map Call.frameIndex ∧
    (∀ (fp : Int) (g : FrameInfo), g.Printed = true →
      printIfNotPrinted fp g = (fp, g, [])) ∧
    (∀ e ∈ (runArranged cfg calls).2, e.frame.FrameIndex ≠ -1) ∧
    ((runArranged cfg calls).1.prev.getLast?.map
        (fun g => (g.FrameIndex, g.Printed))) = some (-1, false) := by
  obtain ⟨hrun, hInv⟩ := processCalls_emitted_idx cfg calls initPipeline hall
    (by intro g hg; cases hg)
  have hmain : ((runArranged cfg calls).2.map fun e => e.frame.FrameIndex) =
      calls.map Call.frameIndex := by
    unfold runArranged
    dsimp only
    unfold output_vectors_std
    rw [if_pos rfl]
    dsimp only
    rw [List.map_append]
    rw [printAll_idx]
    have h0 : unprintedIdx initPipeline.prev = [] := rfl
    rw [h0, List.nil_append] at hrun
    exact hrun
  refine ⟨hmain, fun fp g h => printIfNotPrinted_of_printed fp g h, ?_, ?_⟩
  · intro e he
    have : e.frame.FrameIndex ∈ calls.map Call.frameIndex := by
      rw [← hmain]
      exact List.mem_map_of_mem _ he
    obtain ⟨c, hc, hceq⟩ := List.mem_map.mp this
    rw [← hceq]
    exact hall c hc
  · unfold runArranged
    dsimp only
    unfold output_vectors_std
    rw [if_pos rfl]
    dsimp only
    rw [List.getLast?_concat]
    have h1 : (mkCur cfg (-1)
        ((calls.getLast?.getD { frameIndex := 0, pts := 0, pictType := '?', mvs := [] }).pts)
        ((calls.getLast?.getD { frameIndex := 0, pts := 0, pictType := '?', mvs := [] }).pictType)
        ((calls.getLast?.getD { frameIndex := 0, pts := 0, pictType := '?', mvs := [] }).mvs)).FrameIndex = -1 :=
      (mkCur_meta _ _ _ _ _).2.2.2.1
    have h2 : (mkCur cfg (-1)
        ((calls.getLast?.getD { frameIndex := 0, pts := 0, pictType := '?', mvs := [] }).pts)
        ((calls.getLast?.getD { frameIndex := 0, pts := 0, pictType := '?', mvs := [] }).pictType)
        ((calls.getLast?.getD { frameIndex := 0, pts := 0, pictType := '?', mvs := [] }).mvs)).Printed = false :=
      (mkCur_meta _ _ _ _ _).2.2.2.2.2.2
    simp [h1, h2]

/-- Witness for the amended C6 at a concrete input. -/
theorem C6_witness :
    (∀ c ∈ [({ frameIndex := 1, pts := 0, pictType := 'I',
               mvs := [{ src_x := 0, src_y := 0, dst_x := 8, dst_y := 8 }] } : Call),
            { frameIndex := 2, pts := 1, pictType := 'B', mvs := [] }],
      c.frameIndex ≠ -1) ∧
    (((runArranged { forceGrid8 := false, frameWidth := 64, frameHeight := 64 }
        [{ frameIndex := 1, pts := 0, pictType := 'I',
           mvs := [{ src_x := 0, src_y := 0, dst_x := 8, dst_y := 8 }] },
         { frameIndex := 2, pts := 1, pictType := 'B', mvs := [] }]).2.map
        fun e => e.frame.FrameIndex) =
      ([{ frameIndex := 1, pts := 0, pictType := 'I',
          mvs := [{ src_x := 0, src_y := 0, dst_x := 8, dst_y := 8 }] },
        { frameIndex := 2, pts := 1, pictType := 'B', mvs := [] }] : List Call).map
        Call.frameIndex ∧
     (∀ (fp : Int) (g : FrameInfo), g.Printed = true →
       printIfNotPrinted fp g = (fp, g, [])) ∧
     (∀ e ∈ (runArranged { forceGrid8 := false, frameWidth := 64, frameHeight := 64 }
        [{ frameIndex := 1, pts := 0, pictType := 'I',
           mvs := [{ src_x := 0, src_y := 0, dst_x := 8, dst_y := 8 }] },
         { frameIndex := 2, pts := 1, pictType := 'B', mvs := [] }]).2,
       e.frame.FrameIndex ≠ -1) ∧
     ((runArranged { forceGrid8 := false, frameWidth := 64, frameHeight := 64 }
        [{ frameIndex := 1, pts := 0, pictType := 'I',
           mvs := [{ src_x := 0, src_y := 0, dst_x := 8, dst_y := 8 }] },
         { frameIndex := 2, pts := 1, pictType := 'B', mvs := [] }]).1.prev.getLast?.map
        (fun g => (g.FrameIndex, g.Printed))) = some (-1, false)) :=
  ⟨by decide,
   C6_amended_single_emission
     { forceGrid8 := false, frameWidth := 64, frameHeight := 64 }
     [{ frameIndex := 1, pts := 0, pictType := 'I',
        mvs := [{ src_x := 0, src_y := 0, dst_x := 8, dst_y := 8 }] },
      { frameIndex := 2, pts := 1, pictType := 'B', mvs := [] }]
     (by decide)⟩

/-- Witness for C9 at a concrete input: a mid-stream decode error `-5` after
one buffered empty frame — exit 1, error printed, nothing flushed. -/
theorem C9_witness :
    ((-5 : Int) < 0 ∧ (-5 : Int) ≠ AVERROR_EOF) ∧
    ((runMain { forceGrid8 := false, frameWidth := 64, frameHeight := 64 }
        false false [{ pts := 0, pictType := 'I', mvs := [] }] (-5)).1.exitCode = 1 ∧
     (runMain { forceGrid8 := false, frameWidth := 64, frameHeight := 64 }
        false false [{ pts := 0, pictType := 'I', mvs := [] }] (-5)).1.errorPrinted = true ∧
     (runMain { forceGrid8 := false, frameWidth := 64, frameHeight := 64 }
        false false [{ pts := 0, pictType := 'I', mvs := [] }] (-5)).1.arranged =
       (processFrames { forceGrid8 := false, frameWidth := 64, frameHeight := 64 }
         false false initMain [{ pts := 0, pictType := 'I', mvs := [] }]).2.1 ∧
     (runMain { forceGrid8 := false, frameWidth := 64, frameHeight := 64 }
        false false [{ pts := 0, pictType := 'I', mvs := [] }] (-5)).2.pst =
       (processFrames { forceGrid8 := false, frameWidth := 64, frameHeight := 64 }
         false false initMain [{ pts := 0, pictType := 'I', mvs := [] }]).1.pst) :=
  ⟨⟨by decide, by decide⟩,
   C9_flush_and_decode_error.2.1
     { forceGrid8 := false, frameWidth := 64, frameHeight := 64 } false false
     [{ pts := 0, pictType := 'I', mvs := [] }] (-5) (by decide) (by decide)⟩

/-! ## C8: occupancy-0 cells and their displacements -/

lemma binVector_zeroHoles (g : FrameInfo) (mv : AVMotionVector)
    (h : ZeroHoles g) : ZeroHoles (binVector g mv) := by
  intro i j hocc
  simp only [binVector, upd_apply] at hocc ⊢
  split at hocc
  · cases hocc
  · rw [if_neg (by assumption), if_neg (by assumption)]
    exact h i j hocc

lemma binAll_zeroHoles (mvs : List AVMotionVector) (g : FrameInfo)
    (h : ZeroHoles g) : ZeroHoles (binAll g mvs) := by
  induction mvs generalizing g with
  | nil => exact h
  | cons mv rest ih =>
    simp only [binAll, List.foldl_cons] at *
    exact ih (binVector g mv) (binVector_zeroHoles g mv h)

lemma fillCell_zeroHoles (g : FrameInfo) (c : Nat × Nat) (h : ZeroHoles g) :
    ZeroHoles (fillCell g c) := by
  intro i j hocc
  have hres : fillCell g c = g ∨ (fillCell g c).occupancy c.1 c.2 = 2 := by
    unfold fillCell
    dsimp only
    split
    · split
      · right; exact if_pos ⟨rfl, rfl⟩
      · split
        · right; exact if_pos ⟨rfl, rfl⟩
        · left; rfl
    · left; rfl
  rcases hres with heq | h2
  · rw [heq] at hocc ⊢
    exact h i j hocc
  · by_cases hij : i = c.1 ∧ j = c.2
    · obtain ⟨rfl, rfl⟩ := hij
      rw [hocc] at h2
      cases h2
    · have hcell := fillCell_preserves_other g c i j hij
      have e1 : (fillCell g c).dx i j = g.dx i j :=
        congrArg (fun t => t.1) hcell
      have e2 : (fillCell g c).dy i j = g.dy i j :=
        congrArg (fun t => t.2.1) hcell
      have e3 : (fillCell g c).occupancy i j = g.occupancy i j :=
        congrArg (fun t => t.2.2) hcell
      rw [e1, e2]
      exact h i j (by rw [← e3]; exact hocc)

lemma foldl_fillCell_zeroHoles (l : List (Nat × Nat)) (g : FrameInfo)
    (h : ZeroHoles g) : ZeroHoles (l.foldl fillCell g) := by
  induction l generalizing g with
  | nil => exact h
  | cons c l ih =>
    simp only [List.foldl_cons]
    exact ih (fillCell g c) (fillCell_zeroHoles g c h)

lemma mkCur_zeroHoles (cfg : Config) (fi pts : Int) (pt : Char)
    (mvs : List AVMotionVector) : ZeroHoles (mkCur cfg fi pts pt mvs) := by
  have h0 : ZeroHoles (initCur cfg fi pts pt) := fun i j _ => ⟨rfl, rfl⟩
  have h1 : ZeroHoles (binAll (initCur cfg fi pts pt) mvs) :=
    binAll_zeroHoles mvs _ h0
  unfold mkCur
  dsimp only
  split
  · rw [fill_eq_two_sweeps]
    exact foldl_fillCell_zeroHoles _ _ (foldl_fillCell_zeroHoles _ _ h1)
  · exact h1

lemma fillCell_id_of_occ_zero (g : FrameInfo) (c : Nat × Nat)
    (h : ∀ i j, g.occupancy i j = 0) : fillCell g c = g := by
  unfold fillCell
  dsimp only
  rw [if_pos (h c.1 c.2), if_neg (fun hh => hh.1 (h c.1 (c.2 - 1))),
    if_neg (fun hh => hh.1 (h (c.1 - 1) c.2))]

lemma foldl_fillCell_id_of_occ_zero (l : List (Nat × Nat)) (g : FrameInfo)
    (h : ∀ i j, g.occupancy i j = 0) : l.foldl fillCell g = g := by
  induction l with
  | nil => rfl
  | cons c l ih =>
    simp only [List.foldl_cons]
    rw [fillCell_id_of_occ_zero g c h, ih]

lemma mkCur_occ_zero_of_nil (cfg : Config) (fi pts : Int) (pt : Char) :
    ∀ i j, (mkCur cfg fi pts pt []).occupancy i j = 0 := by
  have hocc : ∀ i j, (binAll (initCur cfg fi pts pt) []).occupancy i j = 0 :=
    fun _ _ => rfl
  unfold mkCur
  dsimp only
  split
  · rw [fill_eq_two_sweeps]
    unfold fillSweep
    rw [foldl_fillCell_id_of_occ_zero _ _ hocc,
      foldl_fillCell_id_of_occ_zero _ _ hocc]
    exact hocc
  · exact hocc

/-- The reachability invariant used for C8: every buffered grid came from
the video path and has zero displacement in its unoccupied cells, and every
grid after the first in the buffer is a vectorless (all-unoccupied) grid. -/
lemma step_c8 (cfg : Config) (st : PipelineState) (c : Call)
    (hfi : c.frameIndex ≠ -1)
    (hInv : (∀ g ∈ st.prev, g.Origin = "video" ∧ ZeroHoles g) ∧
            (∀ g ∈ st.prev.tail, ∀ i j, g.occupancy i j = 0)) :
    (∀ e ∈ (output_vectors_std cfg st c.frameIndex c.pts c.pictType c.mvs).2,
      (e.frame.Origin = "video" → ZeroHoles e.frame) ∧
      (e.frame.Origin = "interpolated" → ∀ i j, e.frame.occupancy i j = 0)) ∧
    ((∀ g ∈ (output_vectors_std cfg st c.frameIndex c.pts c.pictType c.mvs).1.prev,
        g.Origin = "video" ∧ ZeroHoles g) ∧
     (∀ g ∈ (output_vectors_std cfg st c.frameIndex c.pts c.pictType c.mvs).1.prev.tail,
        ∀ i j, g.occupancy i j = 0)) := by
  have hcurP : (mkCur cfg c.frameIndex c.pts c.pictType c.mvs).Printed = false :=
    (mkCur_meta cfg c.frameIndex c.pts c.pictType c.mvs).2.2.2.2.2.2
  have hcurO : (mkCur cfg c.frameIndex c.pts c.pictType c.mvs).Origin = "video" :=
    (mkCur_meta cfg c.frameIndex c.pts c.pictType c.mvs).2.2.2.2.2.1
  have hcurZ : ZeroHoles (mkCur cfg c.frameIndex c.pts c.pictType c.mvs) :=
    mkCur_zeroHoles cfg c.frameIndex c.pts c.pictType c.mvs
  have hvid : ("video" : String) ≠ "interpolated" := by decide
  by_cases hne : c.mvs = []
  · have he : c.mvs.isEmpty = true := by simp [hne]
    unfold output_vectors_std
    rw [if_neg hfi, he]
    simp only [if_true]
    refine ⟨fun e he' => absurd he' (by simp), ?_, ?_⟩
    · intro g hg
      rcases List.mem_append.mp hg with h | h
      · exact hInv.1 g h
      · rcases List.mem_singleton.mp h with rfl
        exact ⟨hcurO, hcurZ⟩
    · intro g hg
      rcases hp : st.prev with _ | ⟨p, ps⟩
      · rw [hp] at hg
        cases hg
      · rw [hp] at hg
        simp only [List.cons_append, List.tail_cons] at hg
        rcases List.mem_append.mp hg with h | h
        · exact hInv.2 g (by rw [hp]; exact h)
        · rcases List.mem_singleton.mp h with rfl
          rw [hne]
          exact mkCur_occ_zero_of_nil cfg c.frameIndex c.pts c.pictType
  · have he : c.mvs.isEmpty = false := by simpa using hne
    unfold output_vectors_std
    rw [if_neg hfi, he]
    simp only [Bool.false_eq_true, if_false]
    by_cases hc : st.prev.length = 2 ∧ st.prev.headI.Empty = false
    · obtain ⟨p0, p1, hp⟩ := List.length_eq_two.mp hc.1
      have hfront : st.prev.headI = p0 := by rw [hp]; rfl
      have hback : st.prev.getLastI = p1 := by rw [hp]; rfl
      have hp1occ : ∀ i j, p1.occupancy i j = 0 :=
        hInv.2 p1 (by rw [hp]; simp)
      rw [if_pos hc, hfront, hback]
      have hstep2 :
          ∀ e ∈ (printIfNotPrinted
              (printIfNotPrinted st.firstPts
                (FrameInfo.InterpolateFlow p1 p0
                  (mkCur cfg c.frameIndex c.pts c.pictType c.mvs))).1
              (mkCur cfg c.frameIndex c.pts c.pictType c.mvs)).2.2,
            (e.frame.Origin = "video" → ZeroHoles e.frame) ∧
            (e.frame.Origin = "interpolated" → ∀ i j, e.frame.occupancy i j = 0) := by
        rw [printIfNotPrinted_of_unprinted _ _ hcurP]
        intro e he'
        rcases List.mem_singleton.mp he' with rfl
        constructor
        · intro _
          exact hcurZ
        · intro habs
          exact absurd (hcurO.symm.trans habs) hvid
      have hstep1 :
          ∀ e ∈ (printIfNotPrinted st.firstPts
              (FrameInfo.InterpolateFlow p1 p0
                (mkCur cfg c.frameIndex c.pts c.pictType c.mvs))).2.2,
            (e.frame.Origin = "video" → ZeroHoles e.frame) ∧
            (e.frame.Origin = "interpolated" → ∀ i j, e.frame.occupancy i j = 0) := by
        by_cases hP1 : p1.Printed = true
        · have hIPp : (FrameInfo.InterpolateFlow p1 p0
              (mkCur cfg c.frameIndex c.pts c.pictType c.mvs)).Printed = true := hP1
          rw [printIfNotPrinted_of_printed _ _ hIPp]
          intro e he'
          cases he'
        · have hP1' : (FrameInfo.InterpolateFlow p1 p0
              (mkCur cfg c.frameIndex c.pts c.pictType c.mvs)).Printed = false := by
            simpa using hP1
          rw [printIfNotPrinted_of_unprinted _ _ hP1']
          intro e he'
          rcases List.mem_singleton.mp he' with rfl
          constructor
          · intro habs
            have h' : ("interpolated" : String) = "video" := habs
            exact absurd h'.symm hvid
          · intro _
            exact hp1occ
      refine ⟨?_, ?_, ?_⟩
      · intro e he'
        rcases List.mem_append.mp he' with h | h
        · exact hstep1 e h
        · exact hstep2 e h
      · intro g hg
        rcases List.mem_singleton.mp hg with rfl
        rw [printIfNotPrinted_of_unprinted _ _ hcurP]
        exact ⟨hcurO, hcurZ⟩
      · intro g hg
        cases hg
    · rw [if_neg hc]
      dsimp only
      have hstep2 :
          ∀ e ∈ (printIfNotPrinted (printAll st.firstPts st.prev).1
              (mkCur cfg c.frameIndex c.pts c.pictType c.mvs)).2.2,
            (e.frame.Origin = "video" → ZeroHoles e.frame) ∧
            (e.frame.Origin = "interpolated" → ∀ i j, e.frame.occupancy i j = 0) := by
        rw [printIfNotPrinted_of_unprinted _ _ hcurP]
        intro e he'
        rcases List.mem_singleton.mp he' with rfl
        constructor
        · intro _
          exact hcurZ
        · intro habs
          exact absurd (hcurO.symm.trans habs) hvid
      refine ⟨?_, ?_, ?_⟩
      · intro e he'
        rcases List.mem_append.mp he' with h | h
        · have hframe : e.frame ∈ (st.prev.filter fun g => !g.Printed).map markPrinted := by
            rw [← (printAll_general st.prev st.firstPts).2]
            exact List.mem_map_of_mem _ h
          obtain ⟨g, hgmem, hgeq⟩ := List.mem_map.mp hframe
          have hgprev : g ∈ st.prev := List.mem_of_mem_filter hgmem
          obtain ⟨hO, hZ⟩ := hInv.1 g hgprev
          constructor
          · intro _
            rw [← hgeq]
            exact hZ
          · intro habs
            rw [← hgeq] at habs
            exact absurd (hO.symm.trans habs) hvid
        · exact hstep2 e h
      · intro g hg
        rcases List.mem_singleton.mp hg with rfl
        rw [printIfNotPrinted_of_unprinted _ _ hcurP]
        exact ⟨hcurO, hcurZ⟩
      · intro g hg
        cases hg

lemma processCalls_c8 (cfg : Config) :
    ∀ (calls : List Call) (st : PipelineState),
    (∀ c ∈ calls, c.frameIndex ≠ -1) →
    ((∀ g ∈ st.prev, g.Origin = "video" ∧ ZeroHoles g) ∧
     (∀ g ∈ st.prev.tail, ∀ i j, g.occupancy i j = 0)) →
    (∀ e ∈ (processCalls cfg st calls).2,
      (e.frame.Origin = "video" → ZeroHoles e.frame) ∧
      (e.frame.Origin = "interpolated" → ∀ i j, e.frame.occupancy i j = 0)) ∧
    ((∀ g ∈ (processCalls cfg st calls).1.prev, g.Origin = "video" ∧ ZeroHoles g) ∧
     (∀ g ∈ (processCalls cfg st calls).1.prev.tail, ∀ i j, g.occupancy i j = 0)) := by
  intro calls
  induction calls with
  | nil =>
    intro st _ hInv
    exact ⟨fun e he => absurd he (by simp [processCalls]), hInv⟩
  | cons c rest ih =>
    intro st hall hInv
    have hc : c.frameIndex ≠ -1 := hall c (by simp)
    obtain ⟨hstep, hInv'⟩ := step_c8 cfg st c hc hInv
    obtain ⟨hih, hInv''⟩ := ih
      (output_vectors_std cfg st c.frameIndex c.pts c.pictType c.mvs).1
      (fun x hx => hall x (by simp [hx])) hInv'
    have hred2 : (processCalls cfg st (c :: rest)).2 =
        (output_vectors_std cfg st c.frameIndex c.pts c.pictType c.mvs).2 ++
        (processCalls cfg
          (output_vectors_std cfg st c.frameIndex c.pts c.pictType c.mvs).1
          rest).2 := rfl
    have hred1 : (processCalls cfg st (c :: rest)).1 =
        (processCalls cfg
          (output_vectors_std cfg st c.frameIndex c.pts c.pictType c.mvs).1
          rest).1 := rfl
    refine ⟨?_, by rw [hred1]; exact hInv''⟩
    intro e he
    rw [hred2] at he
    rcases List.mem_append.mp he with h | h
    · exact hstep e h
    · exact hih e h

/-- **C8 counterexample**: in the run video-frame / empty-frame /
video-frame with displacement −4 at cell (0,0) of a one-cell grid, the
second emitted grid has `origin = "interpolated"`, occupancy 0 at cell
(0,0), yet displacement −4 ≠ 0 there: an occupancy-0 cell of an emitted
grid need not hold the zero displacement. -/
theorem C8_counterexample :
    (((runArranged { forceGrid8 := false, frameWidth := 16, frameHeight := 16 }
        [{ frameIndex := 1, pts := 0, pictType := 'I',
           mvs := [{ src_x := 12, src_y := 16, dst_x := 8, dst_y := 8 }] },
         { frameIndex := 2, pts := 1, pictType := 'B', mvs := [] },
         { frameIndex := 3, pts := 2, pictType := 'P',
           mvs := [{ src_x := 12, src_y := 16, dst_x := 8, dst_y := 8 }] }]).2.map
        fun e => e.frame.Origin).get? 1 = some "interpolated") ∧
    (((runArranged { forceGrid8 := false, frameWidth := 16, frameHeight := 16 }
        [{ frameIndex := 1, pts := 0, pictType := 'I',
           mvs := [{ src_x := 12, src_y := 16, dst_x := 8, dst_y := 8 }] },
         { frameIndex := 2, pts := 1, pictType := 'B', mvs := [] },
         { frameIndex := 3, pts := 2, pictType := 'P',
           mvs := [{ src_x := 12, src_y := 16, dst_x := 8, dst_y := 8 }] }]).2.map
        fun e => e.frame.occupancy 0 0).get? 1 = some 0) ∧
    (((runArranged { forceGrid8 := false, frameWidth := 16, frameHeight := 16 }
        [{ frameIndex := 1, pts := 0, pictType := 'I',
           mvs := [{ src_x := 12, src_y := 16, dst_x := 8, dst_y := 8 }] },
         { frameIndex := 2, pts := 1, pictType := 'B', mvs := [] },
         { frameIndex := 3, pts := 2, pictType := 'P',
           mvs := [{ src_x := 12, src_y := 16, dst_x := 8, dst_y := 8 }] }]).2.map
        fun e => e.frame.dx 0 0).get? 1 = some (-4)) ∧
    ¬((-4 : Int) = 0) := by
  decide

/-- **C8 amended**: in every grid emitted by the arranged pipeline with
`origin = "video"`, every occupancy-0 cell has zero displacement; grids with
`origin = "interpolated"` instead have an all-zero occupancy array while
their displacement cells may be non-zero (the truncating average of the
neighbors), so the original claim fails exactly on them. -/
theorem C8_amended_zero_holes (cfg : Config) (calls : List Call)
    (hall : ∀ c ∈ calls, c.frameIndex ≠ -1) :
    ∀ e ∈ (runArranged cfg calls).2,
      (e.frame.Origin = "video" → ZeroHoles e.frame) ∧
      (e.frame.Origin = "interpolated" → ∀ i j, e.frame.occupancy i j = 0) := by
  obtain ⟨hem, hInv⟩ := processCalls_c8 cfg calls initPipeline hall
    ⟨fun g hg => absurd hg (by simp [initPipeline]),
     fun g hg => absurd hg (by simp [initPipeline])⟩
  have hred : (runArranged cfg calls).2 =
      (processCalls cfg initPipeline calls).2 ++
      (output_vectors_std cfg (processCalls cfg initPipeline calls).1 (-1)
        ((calls.getLast?.getD
          { frameIndex := 0, pts := 0, pictType := '?', mvs := [] }).pts)
        ((calls.getLast?.getD
          { frameIndex := 0, pts := 0, pictType := '?', mvs := [] }).pictType)
        ((calls.getLast?.getD
          { frameIndex := 0, pts := 0, pictType := '?', mvs := [] }).mvs)).2 := rfl
  intro e he
  rw [hred] at he
  rcases List.mem_append.mp he with h | h
  · exact hem e h
  · have hvid : ("video" : String) ≠ "interpolated" := by decide
    rw [show (output_vectors_std cfg (processCalls cfg initPipeline calls).1 (-1)
        ((calls.getLast?.getD
          { frameIndex := 0, pts := 0, pictType := '?', mvs := [] }).pts)
        ((calls.getLast?.getD
          { frameIndex := 0, pts := 0, pictType := '?', mvs := [] }).pictType)
        ((calls.getLast?.getD
          { frameIndex := 0, pts := 0, pictType := '?', mvs := [] }).mvs)).2 =
      (printAll (processCalls cfg initPipeline calls).1.firstPts
        (processCalls cfg initPipeline calls).1.prev).2.2 by
        unfold output_vectors_std
        rw [if_pos rfl]] at h
    have hframe : e.frame ∈
        ((processCalls cfg initPipeline calls).1.prev.filter
          fun g => !g.Printed).map markPrinted := by
      rw [← (printAll_general (processCalls cfg initPipeline calls).1.prev
        (processCalls cfg initPipeline calls).1.firstPts).2]
      exact List.mem_map_of_mem _ h
    obtain ⟨g, hgmem, hgeq⟩ := List.mem_map.mp hframe
    have hgprev : g ∈ (processCalls cfg initPipeline calls).1.prev :=
      List.mem_of_mem_filter hgmem
    obtain ⟨hO, hZ⟩ := hInv.1 g hgprev
    constructor
    · intro _
      rw [← hgeq]
      exact hZ
    · intro habs
      rw [← hgeq] at habs
      exact absurd (hO.symm.trans habs) hvid

/-- Witness for the amended C8 at a concrete input: the run of the
counterexample — each emission satisfies the amended property. -/
theorem C8_witness :
    (∀ c ∈ [({ frameIndex := 1, pts := 0, pictType := 'I',
               mvs := [{ src_x := 12, src_y := 16, dst_x := 8, dst_y := 8 }] } : Call),
            { frameIndex := 2, pts := 1, pictType := 'B', mvs := [] },
            { frameIndex := 3, pts := 2, pictType := 'P',
              mvs := [{ src_x := 12, src_y := 16, dst_x := 8, dst_y := 8 }] }],
      c.frameIndex ≠ -1) ∧
    (∀ e ∈ (runArranged { forceGrid8 := false, frameWidth := 16, frameHeight := 16 }
        [{ frameIndex := 1, pts := 0, pictType := 'I',
           mvs := [{ src_x := 12, src_y := 16, dst_x := 8, dst_y := 8 }] },
         { frameIndex := 2, pts := 1, pictType := 'B', mvs := [] },
         { frameIndex := 3, pts := 2, pictType := 'P',
           mvs := [{ src_x := 12, src_y := 16, dst_x := 8, dst_y := 8 }] }]).2,
      (e.frame.Origin = "video" → ZeroHoles e.frame) ∧
      (e.frame.Origin = "interpolated" → ∀ i j, e.frame.occupancy i j = 0)) :=
  ⟨by decide,
   C8_amended_zero_holes { forceGrid8 := false, frameWidth := 16, frameHeight := 16 }
     [{ frameIndex := 1, pts := 0, pictType := 'I',
        mvs := [{ src_x := 12, src_y := 16, dst_x := 8, dst_y := 8 }] },
      { frameIndex := 2, pts := 1, pictType := 'B', mvs := [] },
      { frameIndex := 3, pts := 2, pictType := 'P',
        mvs := [{ src_x := 12, src_y := 16, dst_x := 8, dst_y := 8 }] }]
     (by decide)⟩

/-! ## C5: PTS rebasing and monotonicity -/

lemma pairwise_lt_le_getLast :
    ∀ (l : List Int) (a : Int), l.Pairwise (· < ·) → l.getLast? = some a →
      ∀ x ∈ l, x ≤ a := by
  intro l
  induction l with
  | nil => intro a _ _ x hx; cases hx
  | cons b t ih =>
    intro a hp hl x hx
    cases t with
    | nil =>
      rw [List.getLast?_singleton] at hl
      rcases List.mem_singleton.mp hx with rfl
      injection hl with h
      omega
    | cons c t2 =>
      rw [List.getLast?_cons_cons] at hl
      rcases List.mem_cons.mp hx with rfl | hx2
      · have hmem : a ∈ c :: t2 := List.mem_of_getLast?_eq_some hl
        exact le_of_lt ((List.pairwise_cons.mp hp).1 a hmem)
      · exact ih a (List.pairwise_cons.mp hp).2 hl x hx2

lemma head?_append_left {α : Type} (l l2 : List α) (h : l ≠ []) :
    (l ++ l2).head? = l.head? := by
  cases l
  · exact absurd rfl h
  · rfl

/-- The invariant after the very first call of a run. -/
lemma first_call_inv (cfg : Config) (c0 : Call)
    (hfi : c0.frameIndex ≠ -1) (h0 : c0.pts ≠ -1) :
    ArrangedInv c0.pts c0.pts
      (output_vectors_std cfg initPipeline c0.frameIndex c0.pts c0.pictType c0.mvs).1
      (output_vectors_std cfg initPipeline c0.frameIndex c0.pts c0.pictType c0.mvs).2 := by
  have hcurP : (mkCur cfg c0.frameIndex c0.pts c0.pictType c0.mvs).Printed = false :=
    (mkCur_meta cfg c0.frameIndex c0.pts c0.pictType c0.mvs).2.2.2.2.2.2
  have hcurPts : (mkCur cfg c0.frameIndex c0.pts c0.pictType c0.mvs).Pts = c0.pts :=
    (mkCur_meta cfg c0.frameIndex c0.pts c0.pictType c0.mvs).2.2.1
  by_cases hne : c0.mvs = []
  · have he : c0.mvs.isEmpty = true := by simp [hne]
    unfold output_vectors_std
    rw [if_neg hfi, he]
    simp only [if_true]
    refine ⟨by simp [initPipeline], ?_, ?_, ?_, ?_, ?_, ?_, ?_⟩
    · show ((initPipeline.prev ++ [mkCur cfg c0.frameIndex c0.pts c0.pictType c0.mvs]).map
        FrameInfo.Pts).Pairwise (· < ·)
      simp [initPipeline]
    · show ((initPipeline.prev ++ [mkCur cfg c0.frameIndex c0.pts c0.pictType c0.mvs]).map
        FrameInfo.Pts).getLast? = some c0.pts
      simp [initPipeline, hcurPts]
    · intro g hg
      have hg' : g = mkCur cfg c0.frameIndex c0.pts c0.pictType c0.mvs := by
        simpa [initPipeline] using hg
      subst hg'
      rw [hne, mkCur_empty_of_nil]
      simp
    · intro e he'
      cases he'
    · simp
    · intro _
      refine ⟨rfl, ?_, ?_⟩
      · intro g hg
        have hg' : g = mkCur cfg c0.frameIndex c0.pts c0.pictType c0.mvs := by
          simpa [initPipeline] using hg
        subst hg'
        exact hcurP
      · show ((initPipeline.prev ++
          [mkCur cfg c0.frameIndex c0.pts c0.pictType c0.mvs]).map
            FrameInfo.Pts).head? = some c0.pts
        simp [initPipeline, hcurPts]
    · intro habs
      exact absurd rfl habs
  · have he : c0.mvs.isEmpty = false := by simpa using hne
    have hc : ¬(initPipeline.prev.length = 2 ∧ initPipeline.prev.headI.Empty = false) := by
      simp [initPipeline]
    unfold output_vectors_std
    rw [if_neg hfi, he]
    simp only [Bool.false_eq_true, if_false]
    rw [if_neg hc]
    dsimp only
    rw [printIfNotPrinted_of_unprinted _ _ hcurP]
    have hfp : (printAll initPipeline.firstPts initPipeline.prev).1 = -1 := rfl
    rw [hfp, if_pos rfl]
    dsimp only
    have hs : (printAll initPipeline.firstPts initPipeline.prev).2.2 = [] := rfl
    refine ⟨by simp, by simp, by simp [hcurPts], ?_, ?_, ?_, ?_, ?_⟩
    · intro g hg
      rcases List.mem_singleton.mp hg with rfl
      intro _
      rfl
    · intro e he'
      rw [hs, List.nil_append] at he'
      rcases List.mem_singleton.mp he' with rfl
      simp [hcurPts]
    · rw [hs, List.nil_append]
      simp
    · intro habs
      rw [hs, List.nil_append] at habs
      cases habs
    · intro _
      refine ⟨hcurPts, ?_, ?_⟩
      · rw [hs, List.nil_append]
        simp [hcurPts]
      · refine ⟨markPrinted (mkCur cfg c0.frameIndex c0.pts c0.pictType c0.mvs),
          rfl, rfl, ?_⟩
        rw [hs, List.nil_append]
        simp [markPrinted, hcurPts]

/-- Appending one strictly larger element keeps a list strictly sorted. -/
lemma pairwise_lt_append_one (l : List Int) (a : Int)
    (hl : l.Pairwise (· < ·)) (ha : ∀ x ∈ l, x < a) :
    (l ++ [a]).Pairwise (· < ·) := by
  rw [List.pairwise_append]
  refine ⟨hl, by simp, ?_⟩
  intro x hx y hy
  rcases List.mem_singleton.mp hy with rfl
  exact ha x hx

/-- Appending two strictly larger elements (in order) keeps a list strictly
sorted. -/
lemma pairwise_lt_append_two (l : List Int) (a b : Int)
    (hl : l.Pairwise (· < ·)) (ha : ∀ x ∈ l, x < a) (hab : a < b) :
    (l ++ ([a] ++ [b])).Pairwise (· < ·) := by
  rw [List.pairwise_append]
  refine ⟨hl, ?_, ?_⟩
  · rw [List.pairwise_append]
    refine ⟨by simp, by simp, ?_⟩
    intro x hx y hy
    rcases List.mem_singleton.mp hx with rfl
    rcases List.mem_singleton.mp hy with rfl
    exact hab
  · intro x hx y hy
    rcases List.mem_append.mp hy with h | h
    · rcases List.mem_singleton.mp h with rfl
      exact ha x hx
    · rcases List.mem_singleton.mp h with rfl
      exact lt_trans (ha x hx) hab

/-- The last element of a list with a singleton appended. -/
lemma getLast?_snoc {α : Type} (l : List α) (a : α) :
    (l ++ [a]).getLast? = some a :=
  List.getLast?_concat l

/-- One arranged call preserves the PTS invariant, advancing `lastPts` to
the new frame's pts. -/
lemma step_arranged_inv (cfg : Config) (st : PipelineState) (c : Call)
    (p1 lastPts : Int) (em : List Emitted)
    (hfi : c.frameIndex ≠ -1) (hp1 : p1 ≠ -1) (hlt : lastPts < c.pts)
    (hInv : ArrangedInv p1 lastPts st em) :
    ArrangedInv p1 c.pts
      (output_vectors_std cfg st c.frameIndex c.pts c.pictType c.mvs).1
      (em ++ (output_vectors_std cfg st c.frameIndex c.pts c.pictType c.mvs).2) := by
  have hcurP : (mkCur cfg c.frameIndex c.pts c.pictType c.mvs).Printed = false :=
    (mkCur_meta cfg c.frameIndex c.pts c.pictType c.mvs).2.2.2.2.2.2
  have hcurPts : (mkCur cfg c.frameIndex c.pts c.pictType c.mvs).Pts = c.pts :=
    (mkCur_meta cfg c.frameIndex c.pts c.pictType c.mvs).2.2.1
  have hle : ∀ x ∈ st.prev.map FrameInfo.Pts, x ≤ lastPts :=
    pairwise_lt_le_getLast _ lastPts hInv.prev_sorted hInv.prev_last
  have hltc : ∀ x ∈ st.prev.map FrameInfo.Pts, x < c.pts :=
    fun x hx => lt_of_le_of_lt (hle x hx) hlt
  by_cases hne : c.mvs = []
  · -- empty vector list: push cur, no emission
    have he : c.mvs.isEmpty = true := by simp [hne]
    unfold output_vectors_std
    rw [if_neg hfi, he]
    simp only [if_true, List.append_nil]
    refine ⟨by simp, ?_, ?_, ?_, hInv.em_header, hInv.em_sorted, ?_, ?_⟩
    · rw [List.map_append]
      rw [List.pairwise_append]
      refine ⟨hInv.prev_sorted, by simp, ?_⟩
      intro x hx y hy
      rcases List.mem_singleton.mp (by simpa using hy) with rfl
      rw [hcurPts]
      exact hltc x hx
    · rw [List.map_append]
      show (st.prev.map FrameInfo.Pts ++
        [(mkCur cfg c.frameIndex c.pts c.pictType c.mvs).Pts]).getLast? = _
      rw [List.getLast?_concat, hcurPts]
    · intro g hg
      rcases List.mem_append.mp hg with h | h
      · exact hInv.printed_full g h
      · rcases List.mem_singleton.mp h with rfl
        intro hcontra
        rw [hne, mkCur_empty_of_nil] at hcontra
        cases hcontra
    · intro hem
      obtain ⟨h1, h2, h3⟩ := hInv.em_nil hem
      refine ⟨h1, ?_, ?_⟩
      · intro g hg
        rcases List.mem_append.mp hg with h | h
        · exact h2 g h
        · rcases List.mem_singleton.mp h with rfl
          exact hcurP
      · rw [List.map_append, head?_append_left _ _ (by
          simpa using hInv.prev_ne)]
        exact h3
    · intro hem
      obtain ⟨h1, h2, gh, hgh, hghP, hlast⟩ := hInv.em_cons hem
      refine ⟨h1, h2, gh, ?_, hghP, hlast⟩
      rw [head?_append_left _ _ hInv.prev_ne]
      exact hgh
  · have he : c.mvs.isEmpty = false := by simpa using hne
    unfold output_vectors_std
    rw [if_neg hfi, he]
    simp only [Bool.false_eq_true, if_false]
    by_cases hc : st.prev.length = 2 ∧ st.prev.headI.Empty = false
    · -- interpolation case
      obtain ⟨p0, p1g, hp⟩ := List.length_eq_two.mp hc.1
      have hfront : st.prev.headI = p0 := by rw [hp]; rfl
      have hback : st.prev.getLastI = p1g := by rw [hp]; rfl
      have h0 : p0.Empty = false := by rw [← hfront]; exact hc.2
      have hp0P : p0.Printed = true :=
        hInv.printed_full p0 (by rw [hp]; simp) h0
      have hem_ne : em ≠ [] := by
        intro habs
        obtain ⟨_, h2, _⟩ := hInv.em_nil habs
        rw [h2 p0 (by rw [hp]; simp)] at hp0P
        cases hp0P
      obtain ⟨hfp, hhead, gh, hgh, hghP, hlast⟩ := hInv.em_cons hem_ne
      have hghp0 : gh = p0 := by
        rw [hp] at hgh
        injection hgh with h
        exact h.symm
      have hpp : p0.Pts < p1g.Pts := by
        have := hInv.prev_sorted
        rw [hp] at this
        simpa using this
      have hghlt : gh.Pts < p1g.Pts := by rw [hghp0]; exact hpp
      have hlp : p1g.Pts = lastPts := by
        have := hInv.prev_last
        rw [hp] at this
        simp at this
        exact this
      have hemle : ∀ x ∈ em.map (fun e => e.frame.Pts), x ≤ gh.Pts :=
        pairwise_lt_le_getLast _ gh.Pts hInv.em_sorted hlast
      rw [if_pos hc, hfront, hback]
      by_cases hP1 : p1g.Printed = true
      · have hIPp : (FrameInfo.InterpolateFlow p1g p0
            (mkCur cfg c.frameIndex c.pts c.pictType c.mvs)).Printed = true := hP1
        rw [printIfNotPrinted_of_printed _ _ hIPp]
        dsimp only
        rw [printIfNotPrinted_of_unprinted _ _ hcurP]
        dsimp only
        rw [hfp, if_neg hp1]
        refine ⟨by simp, by simp, by simp [hcurPts], ?_, ?_, ?_, ?_, ?_⟩
        · intro g hg
          rcases List.mem_singleton.mp hg with rfl
          intro _
          rfl
        · intro e he'
          rcases List.mem_append.mp he' with h | h
          · exact hInv.em_header e h
          · rcases List.mem_singleton.mp (by simpa using h) with rfl
            rfl
        · rw [List.map_append]
          rw [List.pairwise_append]
          refine ⟨hInv.em_sorted, by simp, ?_⟩
          intro x hx y hy
          rcases List.mem_singleton.mp (by simpa using hy) with rfl
          have h1 : x ≤ gh.Pts := hemle x hx
          have h2 : gh.Pts < p1g.Pts := hghlt
          have h3 : p1g.Pts < c.pts := hlp ▸ hlt
          rw [hcurPts]
          omega
        · intro habs
          rcases List.append_eq_nil.mp habs with ⟨h1, _⟩
          exact absurd h1 hem_ne
        · intro _
          refine ⟨rfl, ?_, ?_⟩
          · rw [List.map_append, head?_append_left _ _ (by
              simpa using hem_ne)]
            exact hhead
          · refine ⟨markPrinted (mkCur cfg c.frameIndex c.pts c.pictType c.mvs),
              rfl, rfl, ?_⟩
            rw [List.map_append]
            show (em.map (fun e => e.frame.Pts) ++
              [(mkCur cfg c.frameIndex c.pts c.pictType c.mvs).Pts]).getLast? = _
            rw [List.getLast?_concat]
            rfl
      · have hP1' : (FrameInfo.InterpolateFlow p1g p0
            (mkCur cfg c.frameIndex c.pts c.pictType c.mvs)).Printed = false := by
          simpa using hP1
        rw [printIfNotPrinted_of_unprinted _ _ hP1']
        dsimp only
        rw [printIfNotPrinted_of_unprinted _ _ hcurP]
        dsimp only
        rw [hfp, if_neg hp1, if_neg hp1]
        refine ⟨by simp, by simp, by simp [hcurPts], ?_, ?_, ?_, ?_, ?_⟩
        · intro g hg
          rcases List.mem_singleton.mp hg with rfl
          intro _
          rfl
        · intro e he'
          rcases List.mem_append.mp he' with h | h
          · exact hInv.em_header e h
          · rcases List.mem_cons.mp h with rfl | h2
            · rfl
            · rcases List.mem_singleton.mp (by simpa using h2) with rfl
              rfl
        · rw [List.map_append, List.map_append]
          refine pairwise_lt_append_two _ _ _ hInv.em_sorted ?_ ?_
          · intro x hx
            have h1 : x ≤ gh.Pts := hemle x hx
            show x < p1g.Pts
            omega
          · have h3 : p1g.Pts < c.pts := hlp ▸ hlt
            show p1g.Pts < (mkCur cfg c.frameIndex c.pts c.pictType c.mvs).Pts
            rw [hcurPts]
            exact h3
        · intro habs
          rcases List.append_eq_nil.mp habs with ⟨h1, _⟩
          exact absurd h1 hem_ne
        · intro _
          refine ⟨rfl, ?_, ?_⟩
          · rw [List.map_append, head?_append_left _ _ (by
              simpa using hem_ne)]
            exact hhead
          · refine ⟨markPrinted (mkCur cfg c.frameIndex c.pts c.pictType c.mvs),
              rfl, rfl, ?_⟩
            rw [List.map_append, List.map_append, ← List.append_assoc]
            exact getLast?_snoc _ _
    · -- print-all case
      rw [if_neg hc]
      dsimp only
      rcases hem : em with _ | ⟨e0, emr⟩
      · -- nothing emitted yet: the whole buffer is unprinted
        obtain ⟨hfp0, hunpr, hheadp⟩ := hInv.em_nil hem
        rcases hpv : st.prev with _ | ⟨g0, rest⟩
        · exact absurd hpv hInv.prev_ne
        · have hg0Pts : g0.Pts = p1 := by
            rw [hpv] at hheadp
            simp at hheadp
            exact hheadp
          have hg0ne : g0.Pts ≠ -1 := by rw [hg0Pts]; exact hp1
          have hps : (List.map FrameInfo.Pts (g0 :: rest)).Pairwise (· < ·) := by
            have h := hInv.prev_sorted
            rw [hpv] at h
            exact h
          have hprint := printAll_init g0 rest
            (fun g hg => hunpr g (by rw [hpv]; simp [hg])) (hunpr g0 (by rw [hpv]; simp)) hg0ne
          rw [hfp0, hprint]
          dsimp only
          rw [printIfNotPrinted_of_unprinted _ _ hcurP]
          dsimp only
          rw [hg0Pts, if_neg hp1]
          refine ⟨by simp, by simp, by simp [hcurPts], ?_, ?_, ?_, ?_, ?_⟩
          · intro g hg
            rcases List.mem_singleton.mp hg with rfl
            intro _
            rfl
          · intro e he'
            rw [List.nil_append] at he'
            rcases List.mem_append.mp he' with h | h
            · obtain ⟨g, hgmem, rfl⟩ := List.mem_map.mp h
              rfl
            · rcases List.mem_singleton.mp h with rfl
              rfl
          · rw [List.nil_append, List.map_append]
            refine pairwise_lt_append_one _ _ ?_ ?_
            · rw [List.map_map]
              exact hps
            · intro x hx
              rw [List.map_map] at hx
              obtain ⟨g, hg, rfl⟩ := List.mem_map.mp hx
              show g.Pts < (mkCur cfg c.frameIndex c.pts c.pictType c.mvs).Pts
              rw [hcurPts]
              exact hltc g.Pts (by rw [hpv]; exact List.mem_map_of_mem _ hg)
          · intro habs
            rw [List.nil_append] at habs
            rcases List.append_eq_nil.mp habs with ⟨h1, _⟩
            simp at h1
          · intro _
            refine ⟨rfl, ?_, ?_⟩
            · rw [List.nil_append]
              show some g0.Pts = some p1
              rw [hg0Pts]
            · refine ⟨{ mkCur cfg c.frameIndex c.pts c.pictType c.mvs with
                Printed := true }, rfl, rfl, ?_⟩
              rw [List.nil_append, List.map_append]
              exact getLast?_snoc _ _
      · -- something already emitted: buffer head is printed
        rw [← hem]
        have hem_ne : em ≠ [] := by rw [hem]; simp
        obtain ⟨hfp, hhead, gh, hgh, hghP, hlast⟩ := hInv.em_cons hem_ne
        have hemle : ∀ x ∈ em.map (fun e => e.frame.Pts), x ≤ gh.Pts :=
          pairwise_lt_le_getLast _ gh.Pts hInv.em_sorted hlast
        have hghmem : gh ∈ st.prev := by
          rcases hpv : st.prev with _ | ⟨g0, rest⟩
          · rw [hpv] at hgh; cases hgh
          · rw [hpv] at hgh
            injection hgh with h
            rw [← h]
            simp
        have hunprgt : ∀ g ∈ st.prev, g.Printed = false → gh.Pts < g.Pts := by
          intro g hg hgP
          rcases hpv : st.prev with _ | ⟨g0, rest⟩
          · rw [hpv] at hg; cases hg
          · rw [hpv] at hgh
            injection hgh with h
            subst h
            rw [hpv] at hg
            rcases List.mem_cons.mp hg with rfl | h2
            · rw [hghP] at hgP
              cases hgP
            · have hs := hInv.prev_sorted
              rw [hpv, List.map_cons, List.pairwise_cons] at hs
              exact hs.1 g.Pts (List.mem_map_of_mem _ h2)
        rw [hfp, printAll_of_ne _ _ hp1]
        dsimp only
        rw [printIfNotPrinted_of_unprinted _ _ hcurP]
        dsimp only
        rw [if_neg hp1]
        refine ⟨by simp, by simp, by simp [hcurPts], ?_, ?_, ?_, ?_, ?_⟩
        · intro g hg
          rcases List.mem_singleton.mp hg with rfl
          intro _
          rfl
        · intro e he'
          rcases List.mem_append.mp he' with h | h
          · exact hInv.em_header e h
          · rcases List.mem_append.mp h with h2 | h2
            · obtain ⟨g, hgmem, rfl⟩ := List.mem_map.mp h2
              rfl
            · rcases List.mem_singleton.mp h2 with rfl
              rfl
        · rw [List.map_append, List.map_append, ← List.append_assoc]
          refine pairwise_lt_append_one _ _ ?_ ?_
          · rw [List.pairwise_append]
            refine ⟨hInv.em_sorted, ?_, ?_⟩
            · rw [List.map_map]
              exact List.Pairwise.sublist
                ((List.filter_sublist st.prev).map _) hInv.prev_sorted
            · intro x hx y hy
              rw [List.map_map] at hy
              obtain ⟨g, hgmem, rfl⟩ := List.mem_map.mp hy
              have hgP : g.Printed = false := by
                have := List.of_mem_filter hgmem
                simpa using this
              have h2 := hunprgt g (List.mem_of_mem_filter hgmem) hgP
              have h1 := hemle x hx
              show x < g.Pts
              omega
          · intro x hx
            show x < (mkCur cfg c.frameIndex c.pts c.pictType c.mvs).Pts
            rw [hcurPts]
            rcases List.mem_append.mp hx with h2 | h2
            · have h1 := hemle x h2
              have h3 : gh.Pts < c.pts :=
                hltc gh.Pts (List.mem_map_of_mem _ hghmem)
              omega
            · rw [List.map_map] at h2
              obtain ⟨g, hgmem, rfl⟩ := List.mem_map.mp h2
              show g.Pts < c.pts
              exact hltc g.Pts
                (List.mem_map_of_mem _ (List.mem_of_mem_filter hgmem))
        · intro habs
          rcases List.append_eq_nil.mp habs with ⟨h1, _⟩
          exact absurd h1 hem_ne
        · intro _
          refine ⟨rfl, ?_, ?_⟩
          · rw [List.map_append, head?_append_left _ _ (by
              simpa using hem_ne)]
            exact hhead
          · refine ⟨{ mkCur cfg c.frameIndex c.pts c.pictType c.mvs with
              Printed := true }, rfl, rfl, ?_⟩
            rw [List.map_append, List.map_append, ← List.append_assoc]
            exact getLast?_snoc _ _

/-- The PTS invariant is preserved across an arbitrary arranged run with
strictly increasing pts and no sentinel frame index. -/
lemma processCalls_arranged_inv (cfg : Config) (p1 : Int) (hp1 : p1 ≠ -1)
    (calls : List Call) :
    ∀ (st : PipelineState) (lastPts : Int) (em : List Emitted),
      (∀ c ∈ calls, c.frameIndex ≠ -1) →
      List.Chain' (· < ·) (lastPts :: calls.map Call.pts) →
      ArrangedInv p1 lastPts st em →
      ∃ lp, ArrangedInv p1 lp (processCalls cfg st calls).1
        (em ++ (processCalls cfg st calls).2) := by
  induction calls with
  | nil =>
    intro st lastPts em _ _ hInv
    refine ⟨lastPts, ?_⟩
    show ArrangedInv p1 lastPts st (em ++ [])
    rw [List.append_nil]
    exact hInv
  | cons c rest ih =>
    intro st lastPts em hfi hchain hInv
    rw [List.map_cons, List.chain'_cons] at hchain
    have hstep := step_arranged_inv cfg st c p1 lastPts em
      (hfi c (by simp)) hp1 hchain.1 hInv
    obtain ⟨lp, hlp⟩ := ih
      (output_vectors_std cfg st c.frameIndex c.pts c.pictType c.mvs).1 c.pts
      (em ++ (output_vectors_std cfg st c.frameIndex c.pts c.pictType c.mvs).2)
      (fun c' hc' => hfi c' (by simp [hc'])) hchain.2 hstep
    refine ⟨lp, ?_⟩
    show ArrangedInv p1 lp
      (processCalls cfg
        (output_vectors_std cfg st c.frameIndex c.pts c.pictType c.mvs).1 rest).1
      (em ++ ((output_vectors_std cfg st c.frameIndex c.pts c.pictType c.mvs).2 ++
        (processCalls cfg
          (output_vectors_std cfg st c.frameIndex c.pts c.pictType c.mvs).1 rest).2))
    rw [← List.append_assoc]
    exact hlp

/-- The end-of-stream flush turns the PTS invariant into the global output
properties: every header is the frame pts rebased by `p1`, the emitted pts
are strictly increasing starting at `p1`, something is emitted, and the
final baseline is `p1`. -/
lemma flush_arranged (cfg : Config) (st : PipelineState) (p1 lp pts : Int)
    (pictType : Char) (mvs : List AVMotionVector) (em : List Emitted)
    (hp1 : p1 ≠ -1) (hInv : ArrangedInv p1 lp st em) :
    (∀ e ∈ em ++ (output_vectors_std cfg st (-1) pts pictType mvs).2,
      e.headerPts = e.frame.Pts - p1) ∧
    (((em ++ (output_vectors_std cfg st (-1) pts pictType mvs).2).map
      fun e => e.frame.Pts).Pairwise (· < ·)) ∧
    (((em ++ (output_vectors_std cfg st (-1) pts pictType mvs).2).map
      fun e => e.frame.Pts).head? = some p1) ∧
    em ++ (output_vectors_std cfg st (-1) pts pictType mvs).2 ≠ [] ∧
    (output_vectors_std cfg st (-1) pts pictType mvs).1.firstPts = p1 := by
  unfold output_vectors_std
  rw [if_pos rfl]
  dsimp only
  rcases hem : em with _ | ⟨e0, emr⟩
  · obtain ⟨hfp0, hunpr, hheadp⟩ := hInv.em_nil hem
    rcases hpv : st.prev with _ | ⟨g0, rest⟩
    · exact absurd hpv hInv.prev_ne
    · have hg0Pts : g0.Pts = p1 := by
        rw [hpv] at hheadp
        simp at hheadp
        exact hheadp
      have hg0ne : g0.Pts ≠ -1 := by rw [hg0Pts]; exact hp1
      have hps : (List.map FrameInfo.Pts (g0 :: rest)).Pairwise (· < ·) := by
        have h := hInv.prev_sorted
        rw [hpv] at h
        exact h
      have hprint := printAll_init g0 rest
        (fun g hg => hunpr g (by rw [hpv]; simp [hg])) (hunpr g0 (by rw [hpv]; simp)) hg0ne
      rw [hfp0, hprint]
      dsimp only
      rw [hg0Pts]
      refine ⟨?_, ?_, ?_, ?_, rfl⟩
      · intro e he'
        rw [List.nil_append] at he'
        obtain ⟨g, hgmem, rfl⟩ := List.mem_map.mp he'
        rfl
      · rw [List.nil_append, List.map_map]
        exact hps
      · rw [List.nil_append]
        show some g0.Pts = some p1
        rw [hg0Pts]
      · rw [List.nil_append]
        simp
  · rw [← hem]
    have hem_ne : em ≠ [] := by rw [hem]; simp
    obtain ⟨hfp, hhead, gh, hgh, hghP, hlast⟩ := hInv.em_cons hem_ne
    have hemle : ∀ x ∈ em.map (fun e => e.frame.Pts), x ≤ gh.Pts :=
      pairwise_lt_le_getLast _ gh.Pts hInv.em_sorted hlast
    have hunprgt : ∀ g ∈ st.prev, g.Printed = false → gh.Pts < g.Pts := by
      intro g hg hgP
      rcases hpv : st.prev with _ | ⟨g0, rest⟩
      · rw [hpv] at hg; cases hg
      · rw [hpv] at hgh
        injection hgh with h
        subst h
        rw [hpv] at hg
        rcases List.mem_cons.mp hg with rfl | h2
        · rw [hghP] at hgP
          cases hgP
        · have hs := hInv.prev_sorted
          rw [hpv, List.map_cons, List.pairwise_cons] at hs
          exact hs.1 g.Pts (List.mem_map_of_mem _ h2)
    rw [hfp, printAll_of_ne _ _ hp1]
    dsimp only
    refine ⟨?_, ?_, ?_, ?_, rfl⟩
    · intro e he'
      rcases List.mem_append.mp he' with h | h
      · exact hInv.em_header e h
      · obtain ⟨g, hgmem, rfl⟩ := List.mem_map.mp h
        rfl
    · rw [List.map_append]
      rw [List.pairwise_append]
      refine ⟨hInv.em_sorted, ?_, ?_⟩
      · rw [List.map_map]
        exact List.Pairwise.sublist
          ((List.filter_sublist st.prev).map _) hInv.prev_sorted
      · intro x hx y hy
        rw [List.map_map] at hy
        obtain ⟨g, hgmem, rfl⟩ := List.mem_map.mp hy
        have hgP : g.Printed = false := by
          have := List.of_mem_filter hgmem
          simpa using this
        have h2 := hunprgt g (List.mem_of_mem_filter hgmem) hgP
        have h1 := hemle x hx
        show x < g.Pts
        omega
    · rw [List.map_append, head?_append_left _ _ (by
        simpa using hem_ne)]
      exact hhead
    · simp [hem]

/-- C5, counterexample: the spec says the baseline `first_pts` is initialized
exactly once, to the first emitted grid's pts, and that every header pts is
the grid's pts minus that baseline.  On a stream with strictly increasing
decoder pts `-1, 0` the first emitted grid has pts `-1`, so the second header
should be `0 - (-1) = 1`; but `FirstPts = -1` doubles as the "uninitialized"
sentinel, so the first emission leaves it `-1`, the second emission
re-initializes it to `0`, and both headers come out `0` (the final baseline is
`0`, not the first emitted pts `-1`). -/
theorem C5_counterexample :
    (((runArranged cfgOne
        [{ frameIndex := 0, pts := -1, pictType := 'I',
           mvs := [{ src_x := 0, src_y := 0, dst_x := 8, dst_y := 8 }] },
         { frameIndex := 1, pts := 0, pictType := 'P',
           mvs := [{ src_x := 0, src_y := 0, dst_x := 8, dst_y := 8 }] }]).2.map
        fun e => e.frame.Pts) = [-1, 0]) ∧
    (((runArranged cfgOne
        [{ frameIndex := 0, pts := -1, pictType := 'I',
           mvs := [{ src_x := 0, src_y := 0, dst_x := 8, dst_y := 8 }] },
         { frameIndex := 1, pts := 0, pictType := 'P',
           mvs := [{ src_x := 0, src_y := 0, dst_x := 8, dst_y := 8 }] }]).2.map
        fun e => e.headerPts) = [0, 0]) ∧
    (runArranged cfgOne
        [{ frameIndex := 0, pts := -1, pictType := 'I',
           mvs := [{ src_x := 0, src_y := 0, dst_x := 8, dst_y := 8 }] },
         { frameIndex := 1, pts := 0, pictType := 'P',
           mvs := [{ src_x := 0, src_y := 0, dst_x := 8, dst_y := 8 }] }]).1.firstPts
      = 0 := by
  decide

/-- C5 (amended): over a full arranged run (including the flush) on a stream
of delivered frames with strictly increasing decoder pts whose FIRST pts is
not the sentinel `-1`, every emitted header pts equals the grid's decoder pts
minus the first frame's pts, the emitted header pts sequence is strictly
increasing and starts at `0`, at least one grid is emitted, and the final
baseline `first_pts` is the first frame's pts.  (The original claim, which
allows an initial pts of `-1`, is refuted by `C5_counterexample`: `FirstPts =
-1` doubles as the "uninitialized" sentinel, so a first emitted pts of `-1`
is re-initialized on the next emission.) -/
theorem C5_amended_pts_rebase (cfg : Config) (c0 : Call) (rest : List Call)
    (h0 : c0.pts ≠ -1)
    (hfi : ∀ c ∈ c0 :: rest, c.frameIndex ≠ -1)
    (hchain : List.Chain' (· < ·) ((c0 :: rest).map Call.pts)) :
    (∀ e ∈ (runArranged cfg (c0 :: rest)).2,
      e.headerPts = e.frame.Pts - c0.pts) ∧
    ((runArranged cfg (c0 :: rest)).2.map fun e => e.headerPts).head? = some 0 ∧
    (((runArranged cfg (c0 :: rest)).2.map fun e => e.headerPts).Pairwise (· < ·)) ∧
    (runArranged cfg (c0 :: rest)).2 ≠ [] ∧
    (runArranged cfg (c0 :: rest)).1.firstPts = c0.pts := by
  have hinv0 := first_call_inv cfg c0 (hfi c0 (by simp)) h0
  obtain ⟨lp, hlp⟩ := processCalls_arranged_inv cfg c0.pts h0 rest
    (output_vectors_std cfg initPipeline c0.frameIndex c0.pts c0.pictType c0.mvs).1
    c0.pts
    (output_vectors_std cfg initPipeline c0.frameIndex c0.pts c0.pictType c0.mvs).2
    (fun c hc => hfi c (by simp [hc]))
    (by rw [List.map_cons] at hchain; exact hchain)
    hinv0
  have hlp' : ArrangedInv c0.pts lp
      (processCalls cfg initPipeline (c0 :: rest)).1
      (processCalls cfg initPipeline (c0 :: rest)).2 := hlp
  have hflush := flush_arranged cfg
    (processCalls cfg initPipeline (c0 :: rest)).1 c0.pts lp
    ((c0 :: rest).getLast?.getD
      { frameIndex := 0, pts := 0, pictType := '?', mvs := [] }).pts
    ((c0 :: rest).getLast?.getD
      { frameIndex := 0, pts := 0, pictType := '?', mvs := [] }).pictType
    ((c0 :: rest).getLast?.getD
      { frameIndex := 0, pts := 0, pictType := '?', mvs := [] }).mvs
    (processCalls cfg initPipeline (c0 :: rest)).2 h0 hlp'
  have hA : ∀ e ∈ (runArranged cfg (c0 :: rest)).2,
      e.headerPts = e.frame.Pts - c0.pts := hflush.1
  have hB : (((runArranged cfg (c0 :: rest)).2.map
      fun e => e.frame.Pts).Pairwise (· < ·)) := hflush.2.1
  have hC : (((runArranged cfg (c0 :: rest)).2.map
      fun e => e.frame.Pts).head? = some c0.pts) := hflush.2.2.1
  have hD : (runArranged cfg (c0 :: rest)).2 ≠ [] := hflush.2.2.2.1
  have hE : (runArranged cfg (c0 :: rest)).1.firstPts = c0.pts :=
    hflush.2.2.2.2
  rcases hout : (runArranged cfg (c0 :: rest)).2 with _ | ⟨e0, t⟩
  · exact absurd hout hD
  · rw [hout] at hA hB hC
    refine ⟨hA, ?_, ?_, by simp, hE⟩
    · rw [List.map_cons, List.head?_cons]
      rw [List.map_cons, List.head?_cons] at hC
      have he0 : e0.frame.Pts = c0.pts := by
        injection hC
      rw [hA e0 (by simp), he0]
      simp
    · rw [List.pairwise_map] at hB ⊢
      refine List.Pairwise.imp_of_mem ?_ hB
      intro a b ha hb hr
      rw [hA a ha, hA b hb]
      omega

/-- C5, witness: on the two-frame stream with pts `0, 1` (first pts not the
sentinel), the amended theorem applies and the header pts sequence starts
at `0`. -/
theorem C5_witness :
    ((runArranged cfgOne
      [{ frameIndex := 0, pts := 0, pictType := 'I',
         mvs := [{ src_x := 0, src_y := 0, dst_x := 8, dst_y := 8 }] },
       { frameIndex := 1, pts := 1, pictType := 'P',
         mvs := [{ src_x := 0, src_y := 0, dst_x := 8, dst_y := 8 }] }]).2.map
      fun e => e.headerPts).head? = some 0 :=
  (C5_amended_pts_rebase cfgOne
    { frameIndex := 0, pts := 0, pictType := 'I',
      mvs := [{ src_x := 0, src_y := 0, dst_x := 8, dst_y := 8 }] }
    [{ frameIndex := 1, pts := 1, pictType := 'P',
       mvs := [{ src_x := 0, src_y := 0, dst_x := 8, dst_y := 8 }] }]
    (by decide) (by decide)
    (by
      show List.Chain' (· < ·) [(0 : Int), 1]
      exact List.chain'_cons.mpr ⟨by decide, List.chain'_singleton 1⟩)).2.1

end Mpegflow

